import Mathlib

/-!
# Tokenizer and recursive-descent evaluator (`tokenizer.c`, `parser.c`)

A shallow embedding of the two C files.

* A C string (`char *token`) is modelled by the list of its characters up to
  the terminating NUL; reading at or past the end yields the NUL character.
  The store `token[n] = 0` is `List.take n`.
* The global `line` (a `char *` into the input line) is modelled by its offset.
* The global `current_category` is a `String`; `strcpy` is assignment and
  `strcmp(..) == 0` is equality.
* `int` is `Int`, brought back into the 32-bit range by `wrap32` after each
  arithmetic operation.
* The parser's mutual recursion carries a fuel argument bounding the call
  depth; running out of fuel is the outcome `Fault.outOfFuel`.
* The array `token` of `main` in `tokenizer.c` has `TSIZE` bytes; a `strcpy`
  into it that does not fit is the outcome `ScanFault.overflow`. The parser
  functions receive their buffer from a caller that is not in the sources;
  its capacity is not modelled.
-/

namespace Parser

/-! ## Global state -/

/-- The globals of `tokenizer.c` and `parser.c`, together with the text
written to `stderr` and a ghost log of the `get_token` calls. -/
structure State where
  /-- Offset of the global pointer `line` into the input line. -/
  line : Nat
  /-- Contents of the global `current_category`. -/
  current_category : String
  /-- The global `lexeme_length`. -/
  lexeme_length : Nat
  /-- The global `is_right_paren_error`. -/
  is_right_paren_error : Bool
  /-- Messages written to `stderr`, oldest first. -/
  stderr : List String
  /-- Ghost: for each `get_token` call so far, the cursor offset at entry
  and the buffer it was handed, oldest first. No code reads this field. -/
  calls : List (Nat × List Char)
  deriving DecidableEq

/-- The character `*(token + i)`, NUL at and past the end of the string. -/
def charAt (token : List Char) (i : Nat) : Char :=
  token.getD i (Char.ofNat 0)

/-! ## `tokenizer.c` -/

/-- Source `check_equals`: looks at the character after the first one. -/
def check_equals (token : List Char) (s : State) : Bool × State :=
  if charAt token 1 = '=' then
    (true, { s with lexeme_length := s.lexeme_length + 1 })
  else
    (false, s)

/-- Source `is_valid_operator`: a `switch` on the first character. The
`'^'` case also overwrites the buffer with the string `"^"`. -/
def is_valid_operator (token : List Char) (s : State) : Bool × List Char × State :=
  let c := charAt token 0
  if c = '+' then (true, token, { s with current_category := "ADD_OP" })
  else if c = '-' then (true, token, { s with current_category := "SUB_OP" })
  else if c = '*' then (true, token, { s with current_category := "MULT_OP" })
  else if c = '/' then (true, token, { s with current_category := "DIV_OP" })
  else if c = '<' then
    let r := check_equals token s
    if r.1 = true then (true, token, { r.2 with current_category := "LESS_THAN_OR_EQUAL_OP" })
    else (true, token, { r.2 with current_category := "LESS_THAN_OP" })
  else if c = '>' then
    let r := check_equals token s
    if r.1 = true then (true, token, { r.2 with current_category := "GREATER_THAN_OR_EQUAL_OP" })
    else (true, token, { r.2 with current_category := "GREATER_THAN_OP" })
  else if c = '=' then
    let r := check_equals token s
    if r.1 = true then (true, token, { r.2 with current_category := "EQUALS_OP" })
    else (true, token, { r.2 with current_category := "ASSIGN_OP" })
  else if c = '^' then (true, ['^'], { s with current_category := "EXPON_OP" })
  else if c = '!' then
    let r := check_equals token s
    if r.1 = true then (true, token, { r.2 with current_category := "NOT_EQUALS_OP" })
    else (true, token, { r.2 with current_category := "NOT_OP" })
  else (false, token, s)

/-- The test `*token == '1' || ... || *token == '0'` of `is_valid_integer`. -/
def digit_test (c : Char) : Bool :=
  c == '1' || c == '2' || c == '3' || c == '4' || c == '5'
    || c == '6' || c == '7' || c == '8' || c == '9' || c == '0'

/-- Source `is_valid_integer`: sets the category first, then recurses on
`token + 1` and counts one more character when the recursive call succeeds. -/
def is_valid_integer : List Char → State → Bool × State
  | [], s => (false, { s with current_category := "INT_LITERAL" })
  | c :: rest, s =>
    let s1 := { s with current_category := "INT_LITERAL" }
    if digit_test c = true then
      let r := is_valid_integer rest s1
      if r.1 = true then (true, { r.2 with lexeme_length := r.2.lexeme_length + 1 })
      else (true, r.2)
    else (false, s1)

/-- Source `is_valid_parenthesis`. -/
def is_valid_parenthesis (token : List Char) (s : State) : Bool × State :=
  let c := charAt token 0
  if c = '(' then (true, { s with current_category := "LEFT_PAREN" })
  else if c = ')' then (true, { s with current_category := "RIGHT_PAREN" })
  else (false, s)

/-- Source `is_semi_colon`. -/
def is_semi_colon (token : List Char) (s : State) : Bool × State :=
  if charAt token 0 = ';' then (true, { s with current_category := "SEMI_COLON" })
  else (false, s)

/-- Source `check_token`: the four classifiers joined by short-circuit `||`. -/
def check_token (token : List Char) (s : State) : Bool × List Char × State :=
  let r1 := is_valid_operator token s
  if r1.1 = true then r1
  else
    let r2 := is_valid_integer r1.2.1 r1.2.2
    if r2.1 = true then (true, r1.2.1, r2.2)
    else
      let r3 := is_valid_parenthesis r1.2.1 r2.2
      if r3.1 = true then (true, r1.2.1, r3.2)
      else
        let r4 := is_semi_colon r1.2.1 r3.2
        (r4.1, r1.2.1, r4.2)

/-- Source `get_token`: classify the buffer, cut it after the lexeme and
advance `line` by the lexeme length. Returns the buffer and the globals. -/
def get_token (token_ptr : List Char) (s : State) : List Char × State :=
  let s0 := { s with lexeme_length := 1, calls := s.calls ++ [(s.line, token_ptr)] }
  let r := check_token token_ptr s0
  let s1 := if r.1 = false then { r.2.2 with current_category := "INVALID" } else r.2.2
  (r.2.1.take s1.lexeme_length, { s1 with line := s1.line + s1.lexeme_length })

/-! ### The scanning loop of `main` -/

/-- Source `is_vowel`. -/
def is_vowel (letter : Char) : Bool :=
  letter == 'A' || letter == 'E' || letter == 'I' || letter == 'O' || letter == 'U'

/-- One group of `fprintf` calls of `main`, with the values it formats:
the statement header, a classified lexeme, a lexical error, or the separator
written after a semicolon. -/
inductive Output where
  | statement (i : Nat)
  | lexeme (count : Nat) (token : List Char) (category : String)
  | invalid (c : Char)
  | separator
  deriving DecidableEq

/-- The text `main` writes for one output group. -/
def Output.render : Output → String
  | .statement i => "Statement #" ++ toString i ++ "\n"
  | .lexeme count token category =>
    "Lexeme " ++ toString count ++ " is " ++ String.mk token ++ " and is a"
      ++ (if is_vowel (charAt category.toList 0) = true then "n" else "")
      ++ " " ++ category ++ "\n"
  | .invalid c => "===> '" ++ String.mk [c] ++ "'\nLexical error: not a lexeme\n"
  | .separator => "---------------------------------------------------------\n"

/-- The locals of `main` that its loops use, and what it has written to
`out_file`, oldest first. -/
structure Main where
  /-- Statement number `i`. -/
  i : Nat
  /-- Token count `count`. -/
  count : Nat
  /-- The local `line_count`. -/
  line_count : Nat
  /-- The flag `start`. -/
  start : Nat
  /-- Output groups written to `out_file`. -/
  out_file : List Output
  deriving DecidableEq

/-- The whitespace test `*line == ' ' || *line == '\t' || *line == '\n'`. -/
def is_blank (c : Char) : Bool :=
  c == ' ' || c == '\t' || c == '\n'

/-- The constant `TSIZE` of `tokenizer.h`, the size of the array `token`
of `main`. -/
def TSIZE : Nat := 20

/-- The ways a run of the scanning loop can fail to finish: more passes than
the fuel allows, or a `strcpy` that writes past the end of `token`. -/
inductive ScanFault where
  | outOfFuel
  | overflow
  deriving DecidableEq

/-- The body of the inner `while` loop of `main` once `strcpy(token, line)`
has copied the text at the cursor into `token`: either step over one
whitespace character or call `get_token` and report the token. -/
def scan_pass (input_line : List Char) (s : State) (m : Main) : State × Main :=
  let token := input_line.drop s.line
  if is_blank (charAt (input_line.drop s.line) 0) = true then
    let s1 := { s with line := s.line + 1 }
    if charAt (input_line.drop s1.line) 0 = '\n' then
      (s1, { m with line_count := m.line_count + 1 })
    else (s1, m)
  else
    let r := get_token token s
    let m1 :=
      if r.2.current_category ≠ "INVALID" then
        { m with out_file := m.out_file ++ [.lexeme m.count r.1 r.2.current_category],
                 count := m.count + 1 }
      else { m with out_file := m.out_file ++ [.invalid (charAt r.1 0)] }
    if r.2.current_category = "SEMI_COLON" then
      (r.2, { m1 with i := m1.i + 1, out_file := m1.out_file ++ [.separator], start := 1 })
    else (r.2, m1)

/-- One pass through the body of the inner `while` loop of `main` on the
line `input_line`. It starts with `strcpy(token, line)`, which writes the
text at the cursor and its terminating NUL into `char token[TSIZE]`: with
`TSIZE` or more characters at the cursor the copy runs past the end of the
array and the pass is an `overflow`; otherwise it goes on as `scan_pass`. -/
def scan_step (input_line : List Char) (s : State) (m : Main) :
    Except ScanFault (State × Main) :=
  if TSIZE ≤ (input_line.drop s.line).length then .error .overflow
  else .ok (scan_pass input_line s m)

/-- The inner loop `while (*line != 0)` of `main`, run for at most `fuel`
passes: the globals and locals at the end of the line, `outOfFuel` when the
fuel runs out first, `overflow` when a pass overflows `token`. -/
def scan_line : Nat → List Char → State → Main → Except ScanFault (State × Main)
  | 0, input_line, s, m =>
    if charAt (input_line.drop s.line) 0 = Char.ofNat 0 then .ok (s, m)
    else .error .outOfFuel
  | fuel + 1, input_line, s, m =>
    if charAt (input_line.drop s.line) 0 = Char.ofNat 0 then .ok (s, m)
    else
      match scan_step input_line s m with
      | .error e => .error e
      | .ok r => scan_line fuel input_line r.1 r.2

/-- The body of the outer `while (fgets ...)` loop of `main` for one line
of input: the statement header when a statement starts, `line = input_line`,
then the inner loop. -/
def main_line (fuel : Nat) (input_line : List Char) (s : State) (m : Main) :
    Except ScanFault (State × Main) :=
  let m1 :=
    if m.start = 1 then
      { m with out_file := m.out_file ++ [.statement m.i], start := 0, count := 0 }
    else m
  scan_line fuel input_line { s with line := 0 } m1

/-- The locals of `main` when its outer loop starts. -/
def main_init : Main :=
  { i := 1, count := 0, line_count := 0, start := 1, out_file := [] }

/-! ## `parser.c` -/

/-- The constant `ERROR` of `parser.c`. -/
def ERROR : Int := -1

/-- Two's-complement reduction of an integer into the range of a 32-bit `int`. -/
def wrap32 (x : Int) : Int :=
  (x + 2147483648) % 4294967296 - 2147483648

/-- The ways an evaluation can fail to return: the call depth exceeded the
fuel, or an integer division was executed with divisor zero. -/
inductive Fault where
  | outOfFuel
  | divByZero
  deriving DecidableEq

/-- What a non-terminal function yields: a fault, or its `int` return value
with the buffer and the globals as it leaves them. -/
abbrev Result := Except Fault (Int × List Char × State)

/-- Source `is_number`: `isdigit` of the first character. -/
def is_number (token : List Char) : Bool :=
  (charAt token 0).isDigit

/-- The largest `long` of the platform (LP64): `LONG_MAX`. -/
def LONG_MAX : Nat := 9223372036854775807

/-- Library `atoi` on a string that starts with a digit (the only way `num`
calls it). For a literal that fits an `int` it is the value of the leading
digit run. Beyond that ISO C leaves the result undefined; the library the
program runs with computes `(int) strtol(token, 0, 10)`, where `strtol`
stops at `LONG_MAX` and the conversion to `int` keeps the low 32 bits, and
that is what is modelled. -/
def atoi (token : List Char) : Int :=
  wrap32 (Int.ofNat (min ((token.takeWhile Char.isDigit).foldl
    (fun acc c => acc * 10 + (c.toNat - 48)) 0) LONG_MAX))

/-- The conversion of the `double` that `pow` returns back to `int`: the
value itself when it fits an `int`; otherwise the conversion is undefined in
C and yields `INT_MIN` on the x86-64 the program runs on. -/
def to_int (x : Int) : Int :=
  if -2147483648 ≤ x ∧ x ≤ 2147483647 then x else -2147483648

/-- The call `pow(factor_value, next_factor)` converted back to `int`: the
integer power for a non-negative exponent, and the truncated reciprocal for
a negative one (infinite when the base is 0). Rounding of doubles beyond
2^53 is not modelled. -/
def pow (factor_value next_factor : Int) : Int :=
  if 0 ≤ next_factor then to_int (factor_value ^ next_factor.toNat)
  else if factor_value = 0 then -2147483648
  else if factor_value = 1 then 1
  else if factor_value = -1 then (if next_factor % 2 = 0 then 1 else -1)
  else 0

/-- Appends one message to the text written to `stderr`. -/
def State.eprint (s : State) (msg : String) : State :=
  { s with stderr := s.stderr ++ [msg] }

/-- Source `add_sub_tok`: pulls a token and complains unless it is `+` or `-`. -/
def add_sub_tok (token : List Char) (s : State) : List Char × State :=
  let r := get_token token s
  if r.2.current_category = "ADD_OP" ∨ r.2.current_category = "SUB_OP" then r
  else (r.1, r.2.eprint "Syntax Error: Expected '+' or '-'\n")

/-- Source `mul_div_tok`: pulls a token and complains unless it is `*` or `/`. -/
def mul_div_tok (token : List Char) (s : State) : List Char × State :=
  let r := get_token token s
  if r.2.current_category = "MULT_OP" ∨ r.2.current_category = "DIV_OP" then r
  else (r.1, r.2.eprint "Syntax Error: Expected '*' or '/'\n")

/-- Source `compare_tok`: pulls a token and complains unless it is a
comparison operator. -/
def compare_tok (token : List Char) (s : State) : List Char × State :=
  let r := get_token token s
  if r.2.current_category = "LESS_THAN_OP" ∨ r.2.current_category = "GREATER_THAN_OP"
      ∨ r.2.current_category = "LESS_THAN_OR_EQUAL_OP"
      ∨ r.2.current_category = "GREATER_THAN_OR_EQUAL_OP"
      ∨ r.2.current_category = "NOT_EQUALS_OP" ∨ r.2.current_category = "EQUALS_OP" then r
  else (r.1, r.2.eprint "Syntax Error: Expected a comparison operator\n")

/-- Modelled from the spec: `expon_tok` is called by `factor` but its body is
not in the sources. The spec describes every operator-terminal procedure
alike (it pulls a token and reports "expected operator" when the category
does not match), so it is modelled on its siblings `add_sub_tok`,
`mul_div_tok` and `compare_tok`. -/
def expon_tok (token : List Char) (s : State) : List Char × State :=
  let r := get_token token s
  if r.2.current_category = "EXPON_OP" then r
  else (r.1, r.2.eprint "Syntax Error: Expected '^'\n")

/-- Source `num`: converts the buffer with `atoi` and pulls a token, or
reports that a number was expected. -/
def num (token : List Char) (s : State) : Int × List Char × State :=
  if is_number token = true then
    let number := atoi token
    let r := get_token token s
    (number, r.1, r.2)
  else
    (ERROR, token, s.eprint "Syntax Error: Expected a number\n")

/-- The value `1` or `0` of a C comparison. -/
def cbool (p : Bool) : Int := if p = true then 1 else 0

mutual

/-- Source `expr`: `<expr> -> <term> <ttail>`. -/
def expr : Nat → List Char → State → Result
  | 0, _, _ => .error .outOfFuel
  | fuel + 1, token, s =>
    match term fuel token s with
    | .error e => .error e
    | .ok (subtotal, token1, s1) =>
      if subtotal = ERROR then .ok (subtotal, token1, s1)
      else ttail fuel token1 s1 subtotal

/-- Source `ttail`: `<ttail> -> <add_sub_tok> <term> <ttail> | e`, chosen by
comparing the first character of the buffer with `+` and `-`. -/
def ttail : Nat → List Char → State → Int → Result
  | 0, _, _, _ => .error .outOfFuel
  | fuel + 1, token, s, subtotal =>
    if charAt token 0 = '+' then
      let r := add_sub_tok token s
      match term fuel r.1 r.2 with
      | .error e => .error e
      | .ok (term_value, token1, s1) =>
        if term_value = ERROR then .ok (term_value, token1, s1)
        else ttail fuel token1 s1 (wrap32 (subtotal + term_value))
    else if charAt token 0 = '-' then
      let r := add_sub_tok token s
      match term fuel r.1 r.2 with
      | .error e => .error e
      | .ok (term_value, token1, s1) =>
        if term_value = ERROR then .ok (term_value, token1, s1)
        else ttail fuel token1 s1 (wrap32 (subtotal - term_value))
    else .ok (subtotal, token, s)

/-- Source `term`: `<term> -> <stmt> <stail>`. -/
def term : Nat → List Char → State → Result
  | 0, _, _ => .error .outOfFuel
  | fuel + 1, token, s =>
    match stmt fuel token s with
    | .error e => .error e
    | .ok (term_value, token1, s1) =>
      if term_value = ERROR then .ok (term_value, token1, s1)
      else stail fuel token1 s1 term_value

/-- Source `stmt`: `<stmt> -> <factor> <ftail>`. -/
def stmt : Nat → List Char → State → Result
  | 0, _, _ => .error .outOfFuel
  | fuel + 1, token, s =>
    match factor fuel token s with
    | .error e => .error e
    | .ok (stmt_value, token1, s1) =>
      if stmt_value = ERROR then .ok (stmt_value, token1, s1)
      else ftail fuel token1 s1 stmt_value

/-- Source `stail`: `<stail> -> <mult_div_tok> <stmt> <stail> | e`. The
division `subtotal / stmt_value` faults when the divisor is zero. -/
def stail : Nat → List Char → State → Int → Result
  | 0, _, _, _ => .error .outOfFuel
  | fuel + 1, token, s, subtotal =>
    let r := get_token token s
    if r.2.current_category = "MULT_OP" then
      let r1 := mul_div_tok r.1 r.2
      match stmt fuel r1.1 r1.2 with
      | .error e => .error e
      | .ok (stmt_value, token1, s1) =>
        if stmt_value = ERROR then .ok (stmt_value, token1, s1)
        else stail fuel token1 s1 (wrap32 (subtotal * stmt_value))
    else if r.2.current_category = "DIV_OP" then
      let r1 := mul_div_tok r.1 r.2
      match stmt fuel r1.1 r1.2 with
      | .error e => .error e
      | .ok (stmt_value, token1, s1) =>
        if stmt_value = ERROR then .ok (stmt_value, token1, s1)
        else if stmt_value = 0 then .error .divByZero
        else stail fuel token1 s1 (wrap32 (Int.tdiv subtotal stmt_value))
    else .ok (subtotal, r.1, r.2)

/-- Source `factor`: `<factor> -> <expp> ^ <factor> | <expp>`. -/
def factor : Nat → List Char → State → Result
  | 0, _, _ => .error .outOfFuel
  | fuel + 1, token, s =>
    match expp fuel token s with
    | .error e => .error e
    | .ok (factor_value, token1, s1) =>
      if factor_value = ERROR then .ok (factor_value, token1, s1)
      else
        let r := get_token token1 s1
        if r.2.current_category = "EXPON_OP" then
          let r1 := expon_tok r.1 r.2
          match factor fuel r1.1 r1.2 with
          | .error e => .error e
          | .ok (next_factor, token2, s2) =>
            if next_factor = ERROR then .ok (ERROR, token2, s2)
            else .ok (pow factor_value next_factor, token2, s2)
        else .ok (factor_value, r.1, r.2)

/-- Source `ftail`: `<ftail> -> <compare_tok> <factor> <ftail> | e`. -/
def ftail : Nat → List Char → State → Int → Result
  | 0, _, _, _ => .error .outOfFuel
  | fuel + 1, token, s, subtotal =>
    let r := get_token token s
    if r.2.current_category = "LESS_THAN_OP" then
      let r1 := compare_tok r.1 r.2
      match factor fuel r1.1 r1.2 with
      | .error e => .error e
      | .ok (factor_value, token1, s1) =>
        if factor_value = ERROR then .ok (ERROR, token1, s1)
        else ftail fuel token1 s1 (cbool (decide (subtotal < factor_value)))
    else if r.2.current_category = "GREATER_THAN_OP" then
      let r1 := compare_tok r.1 r.2
      match factor fuel r1.1 r1.2 with
      | .error e => .error e
      | .ok (factor_value, token1, s1) =>
        if factor_value = ERROR then .ok (ERROR, token1, s1)
        else ftail fuel token1 s1 (cbool (decide (subtotal > factor_value)))
    else if r.2.current_category = "NOT_EQUALS_OP" then
      let r1 := compare_tok r.1 r.2
      match factor fuel r1.1 r1.2 with
      | .error e => .error e
      | .ok (factor_value, token1, s1) =>
        if factor_value = ERROR then .ok (ERROR, token1, s1)
        else ftail fuel token1 s1 (cbool (decide (subtotal ≠ factor_value)))
    else if r.2.current_category = "EQUALS_OP" then
      let r1 := compare_tok r.1 r.2
      match factor fuel r1.1 r1.2 with
      | .error e => .error e
      | .ok (factor_value, token1, s1) =>
        if factor_value = ERROR then .ok (ERROR, token1, s1)
        else ftail fuel token1 s1 (cbool (decide (subtotal = factor_value)))
    else if r.2.current_category = "GREATER_THAN_OR_EQUAL_OP" then
      let r1 := compare_tok r.1 r.2
      match factor fuel r1.1 r1.2 with
      | .error e => .error e
      | .ok (factor_value, token1, s1) =>
        if factor_value = ERROR then .ok (ERROR, token1, s1)
        else ftail fuel token1 s1 (cbool (decide (subtotal ≥ factor_value)))
    else if r.2.current_category = "LESS_THAN_OR_EQUAL_OP" then
      let r1 := compare_tok r.1 r.2
      match factor fuel r1.1 r1.2 with
      | .error e => .error e
      | .ok (factor_value, token1, s1) =>
        if factor_value = ERROR then .ok (ERROR, token1, s1)
        else ftail fuel token1 s1 (cbool (decide (subtotal ≤ factor_value)))
    else .ok (subtotal, r.1, r.2)

/-- Source `expp`: `<expp> -> ( <expr> ) | <num>`. -/
def expp : Nat → List Char → State → Result
  | 0, _, _ => .error .outOfFuel
  | fuel + 1, token, s =>
    let r := get_token token s
    if r.2.current_category = "LEFT_PAREN" then
      let r1 := get_token r.1 r.2
      match expr fuel r1.1 r1.2 with
      | .error e => .error e
      | .ok (expp_value, token1, s1) =>
        if s1.current_category = "RIGHT_PAREN" then
          let r2 := get_token token1 s1
          .ok (expp_value, r2.1, r2.2)
        else .ok (ERROR, token1, { s1 with is_right_paren_error := true })
    else .ok (num r.1 r.2)

end

/-- Source `bexpr`: `<bexpr> -> <expr> ;`. Clears the parenthesis flag,
evaluates the expression and requires the category `SEMI_COLON`. -/
def bexpr (fuel : Nat) (token : List Char) (s : State) : Result :=
  let s0 := { s with is_right_paren_error := false }
  match expr fuel token s0 with
  | .error e => .error e
  | .ok (result, token1, s1) =>
    if result = ERROR then .ok (result, token1, s1)
    else if s1.current_category = "SEMI_COLON" then
      let r := get_token token1 s1
      .ok (result, r.1, r.2)
    else .ok (ERROR, token1, s1.eprint "Syntax Error: ';' expected\n")

/-- The state a program starts in: all globals zero, nothing printed. -/
def init : State :=
  { line := 0, current_category := "", lexeme_length := 0,
    is_right_paren_error := false, stderr := [], calls := [] }

/-! ## Definitions used to state and prove the facts below -/

/-- The globals after one `get_token` call that classified the buffer
`token` as category `cat` with lexeme length `n`. -/
def State.pulled (s : State) (token : List Char) (cat : String) (n : Nat) : State :=
  { s with lexeme_length := n, current_category := cat, line := s.line + n,
           calls := s.calls ++ [(s.line, token)] }

/-- The category `get_token` assigns to a buffer (read off a run from the
initial globals; `get_token_eq` shows it does not depend on them). -/
def category_of (token : List Char) : String :=
  (get_token token init).2.current_category

/-- The lexeme length `get_token` assigns to a buffer. -/
def length_of (token : List Char) : Nat :=
  (get_token token init).2.lexeme_length

/-- The category column of the classification table of `get_token`, in
closed form, by first character (and, for `<`, `>`, `=`, `!`, by the second).
`class_table` proves that the code computes it. -/
def category_table (token : List Char) : String :=
  if digit_test (charAt token 0) = true then "INT_LITERAL"
  else if charAt token 0 = '+' then "ADD_OP"
  else if charAt token 0 = '-' then "SUB_OP"
  else if charAt token 0 = '*' then "MULT_OP"
  else if charAt token 0 = '/' then "DIV_OP"
  else if charAt token 0 = '<' then
    (if charAt token 1 = '=' then "LESS_THAN_OR_EQUAL_OP" else "LESS_THAN_OP")
  else if charAt token 0 = '>' then
    (if charAt token 1 = '=' then "GREATER_THAN_OR_EQUAL_OP" else "GREATER_THAN_OP")
  else if charAt token 0 = '=' then
    (if charAt token 1 = '=' then "EQUALS_OP" else "ASSIGN_OP")
  else if charAt token 0 = '^' then "EXPON_OP"
  else if charAt token 0 = '!' then
    (if charAt token 1 = '=' then "NOT_EQUALS_OP" else "NOT_OP")
  else if charAt token 0 = '(' then "LEFT_PAREN"
  else if charAt token 0 = ')' then "RIGHT_PAREN"
  else if charAt token 0 = ';' then "SEMI_COLON"
  else "INVALID"

/-- The lexeme-length column of the classification table of `get_token`. -/
def length_table (token : List Char) : Nat :=
  if digit_test (charAt token 0) = true then (token.takeWhile Char.isDigit).length
  else if charAt token 0 = '<' ∨ charAt token 0 = '>' ∨ charAt token 0 = '='
      ∨ charAt token 0 = '!' then
    (if charAt token 1 = '=' then 2 else 1)
  else 1

/-- A digit run: a non-empty string of decimal digits, the shape of the
buffer after `get_token` has classified an `INT_LITERAL`. -/
def DigitRun (d : List Char) : Prop :=
  (charAt d 0).isDigit = true ∧ d.takeWhile Char.isDigit = d

/-- The globals after `k` further `get_token` calls on the digit run `d`. -/
def State.pulledN (s : State) (d : List Char) : Nat → State
  | 0 => s
  | k + 1 => (s.pulledN d k).pulled d "INT_LITERAL" d.length

/-- The leading digit run of a buffer: its `INT_LITERAL` lexeme. -/
def digits (token : List Char) : List Char := token.takeWhile Char.isDigit

/-- The globals `bexpr` leaves behind on a buffer that starts with a digit. -/
def State.afterDigits (s : State) (token : List Char) : State :=
  let s1 := ({ s with is_right_paren_error := false }).pulled token "INT_LITERAL"
    (digits token).length
  if atoi (digits token) = ERROR then s1.pulledN (digits token) 1
  else (s1.pulledN (digits token) 4).eprint "Syntax Error: ';' expected\n"

/-- What every call of `expp`, `factor`, `stmt`, `term` and `expr` on the
buffer `token` satisfies: it does not fault on a division, and when it
returns, the buffer still starts with the same character, which is a digit
unless the value is `ERROR`. -/
def Good (token : List Char) (r : Result) : Prop :=
  r ≠ .error .divByZero ∧
    ∀ v t s', r = .ok (v, t, s') →
      charAt t 0 = charAt token 0 ∧ (v ≠ ERROR → (charAt token 0).isDigit = true)

/-- What every call of `ftail`, `stail` and `ttail` satisfies. -/
def GoodTail (token : List Char) (r : Result) : Prop :=
  r ≠ .error .divByZero ∧ ∀ v t s', r = .ok (v, t, s') → charAt t 0 = charAt token 0

/-- The shape shared by `expr`, `term` and `stmt`: a call, then, unless it
returned `ERROR`, the tail call on its value. -/
def seq (r : Result) (tail : Int → List Char → State → Result) : Result :=
  match r with
  | .error e => .error e
  | .ok (v, t, s1) => if v = ERROR then .ok (v, t, s1) else tail v t s1

/-- The shape of the operator branches of `ftail` and `factor`: like `seq`,
but the literal `ERROR` is returned. -/
def seqE (r : Result) (tail : Int → List Char → State → Result) : Result :=
  match r with
  | .error e => .error e
  | .ok (v, t, s1) => if v = ERROR then .ok (ERROR, t, s1) else tail v t s1

/-- The lexeme an output group of `main` reports: the token of a `lexeme`
group, the offending character of an `invalid` group, nothing otherwise. -/
def Output.lexemes : Output → List (List Char)
  | .lexeme _ token _ => [token]
  | .invalid c => [[c]]
  | _ => []

/-- The lexemes reported in the output of `main`, in order. -/
def lexemes (out : List Output) : List (List Char) :=
  (out.map Output.lexemes).flatten

/-- What a pass of the inner loop of `main` appends to `out_file` after
`get_token` returned the buffer and globals `r`, with `count` the token
count so far: the lexeme with its category, or the lexical error, and then
the separator when the category is `SEMI_COLON`. -/
def report (count : Nat) (r : List Char × State) : List Output :=
  (if r.2.current_category ≠ "INVALID" then [Output.lexeme count r.1 r.2.current_category]
    else [Output.invalid (charAt r.1 0)])
    ++ (if r.2.current_category = "SEMI_COLON" then [Output.separator] else [])

/-- The number a decimal literal at the start of a buffer denotes. -/
def literal_value (token : List Char) : Nat :=
  (token.takeWhile Char.isDigit).foldl (fun acc c => acc * 10 + (c.toNat - 48)) 0

/-- A line of 40 characters, twice the size of the array `token` of `main`. -/
def long_line : List Char := "1+2+3+4+5+6+7+8+9+1+2+3+4+5+6+7+8+9+1+2;".toList

/-! ## Facts about the tokenizer -/

theorem digit_test_cases (c : Char) (h : digit_test c = true) :
    c = '1' ∨ c = '2' ∨ c = '3' ∨ c = '4' ∨ c = '5' ∨ c = '6' ∨ c = '7' ∨ c = '8'
      ∨ c = '9' ∨ c = '0' := by
  simpa [digit_test, or_assoc] using h

theorem digit_test_eq_isDigit (c : Char) : digit_test c = c.isDigit := by
  cases hd : c.isDigit with
  | true =>
    have h1 : 48 ≤ c.toNat ∧ c.toNat ≤ 57 := by
      simp only [Char.isDigit, Bool.and_eq_true, decide_eq_true_eq] at hd
      exact ⟨hd.1, hd.2⟩
    have h2 : c = Char.ofNat c.toNat := (Char.ofNat_toNat c).symm
    obtain ⟨h3, h4⟩ := h1
    generalize c.toNat = n at h2 h3 h4
    subst h2
    interval_cases n <;> rfl
  | false =>
    cases ht : digit_test c with
    | false => rfl
    | true =>
      rcases digit_test_cases c ht with h | h | h | h | h | h | h | h | h | h <;>
        subst h <;> simp [Char.isDigit] at hd

theorem is_valid_integer_eq (token : List Char) (s : State) :
    is_valid_integer token s =
      (decide (0 < (token.takeWhile digit_test).length),
        { s with current_category := "INT_LITERAL",
                 lexeme_length := s.lexeme_length + ((token.takeWhile digit_test).length - 1) }) := by
  induction token generalizing s with
  | nil => simp [is_valid_integer]
  | cons c rest ih =>
    by_cases hc : digit_test c = true
    · simp only [is_valid_integer, hc, if_true, ih, List.takeWhile_cons_of_pos hc,
        List.length_cons]
      by_cases hr : 0 < (rest.takeWhile digit_test).length
      · simp [hr]
        omega
      · simp [hr]
        omega
    · simp [is_valid_integer, hc]

theorem takeWhile_digit_test (token : List Char) :
    token.takeWhile digit_test = token.takeWhile Char.isDigit := by
  have h : digit_test = Char.isDigit := funext digit_test_eq_isDigit
  rw [h]

theorem take_length_takeWhile (p : Char → Bool) (l : List Char) :
    l.take (l.takeWhile p).length = l.takeWhile p := by
  induction l with
  | nil => simp
  | cons a l ih =>
    by_cases h : p a = true
    · simp [List.takeWhile_cons_of_pos h, ih]
    · simp [List.takeWhile_cons_of_neg h]

/-- Closed form of `get_token` on a buffer whose first character is a digit:
the buffer becomes the leading digit run, classified `INT_LITERAL`. -/
theorem get_token_digit (c : Char) (rest : List Char) (s : State) (hc : c.isDigit = true) :
    get_token (c :: rest) s =
      ((c :: rest).takeWhile Char.isDigit,
        s.pulled (c :: rest) "INT_LITERAL" ((c :: rest).takeWhile Char.isDigit).length) := by
  have ht : digit_test c = true := by rw [digit_test_eq_isDigit]; exact hc
  have hop : ∀ s : State, is_valid_operator (c :: rest) s = (false, c :: rest, s) := by
    intro s
    rcases digit_test_cases c ht with h | h | h | h | h | h | h | h | h | h <;>
      subst h <;> rfl
  simp [get_token, check_token, hop, is_valid_integer_eq, takeWhile_digit_test,
    List.takeWhile_cons_of_pos hc, State.pulled]
  refine ⟨?_, by omega⟩
  rw [Nat.add_comm, List.take_succ_cons, take_length_takeWhile]

/-- Closed form of `get_token` on a buffer whose first character is `(`. -/
theorem get_token_lparen (rest : List Char) (s : State) :
    get_token ('(' :: rest) s = (['('], s.pulled ('(' :: rest) "LEFT_PAREN" 1) := by
  simp [get_token, check_token, is_valid_operator, is_valid_integer, is_valid_parenthesis,
    charAt, digit_test, State.pulled]

theorem take_one_of_head (token : List Char) (c : Char) (h : charAt token 0 = c)
    (hc : c ≠ Char.ofNat 0) : token.take 1 = [c] := by
  cases token with
  | nil => simp [charAt] at h; exact absurd h.symm hc
  | cons a r => simp [charAt] at h; simp [h]

theorem is_valid_integer_nondigit (token : List Char) (s : State)
    (h : digit_test (charAt token 0) = false) :
    is_valid_integer token s = (false, { s with current_category := "INT_LITERAL" }) := by
  cases token with
  | nil => rfl
  | cons a r =>
    have h1 : digit_test a = false := by simpa [charAt] using h
    simp [is_valid_integer, h1]

/-- Closed form of `get_token`: whatever the globals hold, the buffer is cut
to `length_of` characters, classified `category_of`, the cursor advances by
the lexeme length, and no other global changes. -/
theorem get_token_eq (token : List Char) (s : State) :
    get_token token s =
      (token.take (length_of token), s.pulled token (category_of token) (length_of token)) := by
  by_cases hd : digit_test (charAt token 0) = true
  · cases token with
    | nil => simp [charAt, digit_test] at hd
    | cons c r =>
      have hc : c.isDigit = true := by
        rw [← digit_test_eq_isDigit]; simpa [charAt] using hd
      simp only [category_of, length_of, get_token_digit c r _ hc, State.pulled]
      rw [take_length_takeWhile]
  · have hd1 : digit_test (charAt token 0) = false := by simpa using hd
    have hint := is_valid_integer_nondigit token
    by_cases h1 : charAt token 0 = '+'
    · simp [category_of, length_of, get_token, check_token, is_valid_operator, h1, State.pulled, init]
    by_cases h2 : charAt token 0 = '-'
    · simp [category_of, length_of, get_token, check_token, is_valid_operator, h2, State.pulled, init]
    by_cases h3 : charAt token 0 = '*'
    · simp [category_of, length_of, get_token, check_token, is_valid_operator, h3, State.pulled, init]
    by_cases h4 : charAt token 0 = '/'
    · simp [category_of, length_of, get_token, check_token, is_valid_operator, h4, State.pulled, init]
    by_cases h5 : charAt token 0 = '<'
    · by_cases he : charAt token 1 = '=' <;>
        simp [category_of, length_of, get_token, check_token, is_valid_operator, check_equals,
          h5, he, State.pulled, init]
    by_cases h6 : charAt token 0 = '>'
    · by_cases he : charAt token 1 = '=' <;>
        simp [category_of, length_of, get_token, check_token, is_valid_operator, check_equals,
          h6, he, State.pulled, init]
    by_cases h7 : charAt token 0 = '='
    · by_cases he : charAt token 1 = '=' <;>
        simp [category_of, length_of, get_token, check_token, is_valid_operator, check_equals,
          h7, he, State.pulled, init]
    by_cases h8 : charAt token 0 = '^'
    · have ht := take_one_of_head token '^' h8 (by decide)
      simp [category_of, length_of, get_token, check_token, is_valid_operator, h8, State.pulled,
        init, ht]
    by_cases h9 : charAt token 0 = '!'
    · by_cases he : charAt token 1 = '=' <;>
        simp [category_of, length_of, get_token, check_token, is_valid_operator, check_equals,
          h9, he, State.pulled, init]
    have hop : ∀ s : State, is_valid_operator token s = (false, token, s) := by
      intro s; simp [is_valid_operator, h1, h2, h3, h4, h5, h6, h7, h8, h9]
    by_cases h10 : charAt token 0 = '('
    · simp [category_of, length_of, get_token, check_token, hop, hint _ hd1,
        is_valid_parenthesis, h10, State.pulled, init]
    by_cases h11 : charAt token 0 = ')'
    · simp [category_of, length_of, get_token, check_token, hop, hint _ hd1,
        is_valid_parenthesis, h11, State.pulled, init]
    by_cases h12 : charAt token 0 = ';'
    · simp [category_of, length_of, get_token, check_token, hop, hint _ hd1,
        is_valid_parenthesis, is_semi_colon, h12, State.pulled, init]
    · simp [category_of, length_of, get_token, check_token, hop, hint _ hd1,
        is_valid_parenthesis, is_semi_colon, h10, h11, h12, State.pulled, init]

theorem class_table (token : List Char) :
    category_of token = category_table token ∧ length_of token = length_table token := by
  unfold category_table length_table
  by_cases hd : digit_test (charAt token 0) = true
  · cases token with
    | nil => simp [charAt, digit_test] at hd
    | cons c r =>
      have hc : c.isDigit = true := by
        rw [← digit_test_eq_isDigit]; simpa [charAt] using hd
      simp only [category_of, length_of, get_token_digit c r _ hc, State.pulled, if_pos hd,
        and_self]
  · have hd1 : digit_test (charAt token 0) = false := by simpa using hd
    have hint := is_valid_integer_nondigit token
    rw [if_neg hd, if_neg hd]
    by_cases h1 : charAt token 0 = '+'
    · simp [category_of, length_of, get_token, check_token, is_valid_operator, h1, init]
    by_cases h2 : charAt token 0 = '-'
    · simp [category_of, length_of, get_token, check_token, is_valid_operator, h2, init]
    by_cases h3 : charAt token 0 = '*'
    · simp [category_of, length_of, get_token, check_token, is_valid_operator, h3, init]
    by_cases h4 : charAt token 0 = '/'
    · simp [category_of, length_of, get_token, check_token, is_valid_operator, h4, init]
    by_cases h5 : charAt token 0 = '<'
    · by_cases he : charAt token 1 = '=' <;>
        simp [category_of, length_of, get_token, check_token, is_valid_operator, check_equals,
          h5, he, init]
    by_cases h6 : charAt token 0 = '>'
    · by_cases he : charAt token 1 = '=' <;>
        simp [category_of, length_of, get_token, check_token, is_valid_operator, check_equals,
          h6, he, init]
    by_cases h7 : charAt token 0 = '='
    · by_cases he : charAt token 1 = '=' <;>
        simp [category_of, length_of, get_token, check_token, is_valid_operator, check_equals,
          h7, he, init]
    by_cases h8 : charAt token 0 = '^'
    · simp [category_of, length_of, get_token, check_token, is_valid_operator, h8, init]
    by_cases h9 : charAt token 0 = '!'
    · by_cases he : charAt token 1 = '=' <;>
        simp [category_of, length_of, get_token, check_token, is_valid_operator, check_equals,
          h9, he, init]
    have hop : ∀ s : State, is_valid_operator token s = (false, token, s) := by
      intro s; simp [is_valid_operator, h1, h2, h3, h4, h5, h6, h7, h8, h9]
    by_cases h10 : charAt token 0 = '('
    · simp [category_of, length_of, get_token, check_token, hop, hint _ hd1,
        is_valid_parenthesis, h10, init]
    by_cases h11 : charAt token 0 = ')'
    · simp [category_of, length_of, get_token, check_token, hop, hint _ hd1,
        is_valid_parenthesis, h11, init]
    by_cases h12 : charAt token 0 = ';'
    · simp [category_of, length_of, get_token, check_token, hop, hint _ hd1,
        is_valid_parenthesis, is_semi_colon, h12, init]
    · simp [category_of, length_of, get_token, check_token, hop, hint _ hd1,
        is_valid_parenthesis, is_semi_colon, h1, h2, h3, h4, h5, h6, h7, h8, h9, h10, h11, h12,
        init]

theorem length_of_pos (token : List Char) : 0 < length_of token := by
  rw [(class_table token).2]
  unfold length_table
  split_ifs with hd
  · cases token with
    | nil => simp [charAt, digit_test] at hd
    | cons c r =>
      have hc : c.isDigit = true := by
        rw [← digit_test_eq_isDigit]; simpa [charAt] using hd
      simp [List.takeWhile_cons_of_pos hc]
  all_goals decide

theorem ite_str_ne {c : Prop} [Decidable c] {a b v : String} (ha : a ≠ v) (hb : b ≠ v) :
    (if c then a else b) ≠ v := by
  by_cases h : c
  · rw [if_pos h]; exact ha
  · rw [if_neg h]; exact hb

theorem category_lparen (token : List Char) (h : category_of token = "LEFT_PAREN") :
    charAt token 0 = '(' := by
  rw [(class_table token).1] at h
  by_contra hne
  revert h
  unfold category_table
  rw [if_neg hne]
  repeat first
    | exact (by decide : ("INVALID" : String) ≠ "LEFT_PAREN")
    | refine ite_str_ne (by decide) ?_
    | refine ite_str_ne (ite_str_ne (by decide) (by decide)) ?_

theorem category_div (token : List Char) (h : category_of token = "DIV_OP") :
    charAt token 0 = '/' := by
  rw [(class_table token).1] at h
  by_contra hne
  revert h
  unfold category_table
  rw [if_neg hne]
  repeat first
    | exact (by decide : ("INVALID" : String) ≠ "DIV_OP")
    | refine ite_str_ne (by decide) ?_
    | refine ite_str_ne (ite_str_ne (by decide) (by decide)) ?_

theorem charAt_take (token : List Char) (n : Nat) (hn : 0 < n) :
    charAt (token.take n) 0 = charAt token 0 := by
  cases n with
  | zero => omega
  | succ m => cases token <;> simp [charAt]

/-- The first character of the buffer is the same after `get_token`. -/
theorem get_token_head (token : List Char) (s : State) :
    charAt (get_token token s).1 0 = charAt token 0 := by
  rw [get_token_eq]
  exact charAt_take token _ (length_of_pos token)

/-! ## Facts about the evaluator -/

/-- On a buffer that starts with `(`, none of the five nested non-terminal
functions returns within any call depth: `expp` pulls `(` twice from the
same buffer and calls `expr` on it again. -/
theorem lparen_out_of_fuel (fuel : Nat) :
    ∀ (rest : List Char) (s : State),
      expp fuel ('(' :: rest) s = .error .outOfFuel
      ∧ factor fuel ('(' :: rest) s = .error .outOfFuel
      ∧ stmt fuel ('(' :: rest) s = .error .outOfFuel
      ∧ term fuel ('(' :: rest) s = .error .outOfFuel
      ∧ expr fuel ('(' :: rest) s = .error .outOfFuel := by
  induction fuel with
  | zero => intro rest s; simp [expp, factor, stmt, term, expr]
  | succ n ih =>
    intro rest s
    obtain ⟨h1, h2, h3, h4, h5⟩ := ih rest s
    refine ⟨?_, ?_, ?_, ?_, ?_⟩
    · have h := (ih [] ((s.pulled ('(' :: rest) "LEFT_PAREN" 1).pulled ['('] "LEFT_PAREN" 1)).2.2.2.2
      simp [expp, get_token_lparen, State.pulled] at h ⊢
      simp [State.pulled, h]
    · simp [factor, h1]
    · simp [stmt, h2]
    · simp [term, h3]
    · simp [expr, h4]

theorem takeWhile_idem (p : Char → Bool) (l : List Char) :
    (l.takeWhile p).takeWhile p = l.takeWhile p := by
  induction l with
  | nil => simp
  | cons a l ih =>
    by_cases h : p a = true
    · simp [List.takeWhile_cons_of_pos h, ih]
    · simp [List.takeWhile_cons_of_neg h]

theorem digitRun_takeWhile (c : Char) (rest : List Char) (hc : c.isDigit = true) :
    DigitRun ((c :: rest).takeWhile Char.isDigit) := by
  refine ⟨?_, takeWhile_idem _ _⟩
  simp [List.takeWhile_cons_of_pos hc, charAt, hc]

theorem get_token_run (d : List Char) (s : State) (hd : DigitRun d) :
    get_token d s = (d, s.pulled d "INT_LITERAL" d.length) := by
  obtain ⟨h0, hrun⟩ := hd
  cases d with
  | nil => simp [charAt, Char.isDigit] at h0
  | cons c r =>
    have hc : c.isDigit = true := by simpa [charAt] using h0
    rw [get_token_digit c r s hc, hrun]

theorem num_run (d : List Char) (s : State) (hd : DigitRun d) :
    num d s = (atoi d, d, s.pulled d "INT_LITERAL" d.length) := by
  have h0 : is_number d = true := hd.1
  simp [num, h0, get_token_run d s hd]

theorem ftail_run (k : Nat) (d : List Char) (s : State) (subtotal : Int) (hd : DigitRun d) :
    ftail (k + 1) d s subtotal = .ok (subtotal, d, s.pulled d "INT_LITERAL" d.length) := by
  simp [ftail, get_token_run d s hd, State.pulled]

theorem stail_run (k : Nat) (d : List Char) (s : State) (subtotal : Int) (hd : DigitRun d) :
    stail (k + 1) d s subtotal = .ok (subtotal, d, s.pulled d "INT_LITERAL" d.length) := by
  simp [stail, get_token_run d s hd, State.pulled]

theorem ttail_run (k : Nat) (d : List Char) (s : State) (subtotal : Int) (hd : DigitRun d) :
    ttail (k + 1) d s subtotal = .ok (subtotal, d, s) := by
  have h1 : charAt d 0 ≠ '+' := by
    intro h; have := hd.1; rw [h] at this; simp [Char.isDigit] at this
  have h2 : charAt d 0 ≠ '-' := by
    intro h; have := hd.1; rw [h] at this; simp [Char.isDigit] at this
  simp [ttail, h1, h2]

theorem expp_digit (k : Nat) (c : Char) (rest : List Char) (s : State) (hc : c.isDigit = true) :
    expp (k + 1) (c :: rest) s =
      .ok (atoi (digits (c :: rest)), digits (c :: rest),
        (s.pulled (c :: rest) "INT_LITERAL" (digits (c :: rest)).length).pulledN
          (digits (c :: rest)) 1) := by
  have hd := digitRun_takeWhile c rest hc
  simp only [expp, get_token_digit c rest s hc, digits]
  have hcat : (s.pulled (c :: rest) "INT_LITERAL"
      ((c :: rest).takeWhile Char.isDigit).length).current_category ≠ "LEFT_PAREN" := by
    simp [State.pulled]
  simp only [if_neg hcat, num_run _ _ hd, State.pulledN]

theorem factor_digit (k : Nat) (c : Char) (rest : List Char) (s : State) (hc : c.isDigit = true) :
    factor (k + 2) (c :: rest) s =
      .ok (atoi (digits (c :: rest)), digits (c :: rest),
        (s.pulled (c :: rest) "INT_LITERAL" (digits (c :: rest)).length).pulledN
          (digits (c :: rest)) (if atoi (digits (c :: rest)) = ERROR then 1 else 2)) := by
  have hd : DigitRun (digits (c :: rest)) := digitRun_takeWhile c rest hc
  rw [factor]
  simp only [expp_digit k c rest s hc]
  by_cases he : atoi (digits (c :: rest)) = ERROR
  · simp only [if_pos he]
  · simp only [if_neg he]
    simp only [get_token_run _ _ hd]
    simp [State.pulled, State.pulledN]

theorem stmt_digit (k : Nat) (c : Char) (rest : List Char) (s : State) (hc : c.isDigit = true) :
    stmt (k + 3) (c :: rest) s =
      .ok (atoi (digits (c :: rest)), digits (c :: rest),
        (s.pulled (c :: rest) "INT_LITERAL" (digits (c :: rest)).length).pulledN
          (digits (c :: rest)) (if atoi (digits (c :: rest)) = ERROR then 1 else 3)) := by
  have hd : DigitRun (digits (c :: rest)) := digitRun_takeWhile c rest hc
  rw [stmt]
  simp only [factor_digit k c rest s hc]
  by_cases he : atoi (digits (c :: rest)) = ERROR
  · simp only [if_pos he]
  · simp only [if_neg he]
    rw [ftail_run _ _ _ _ hd]
    rfl

theorem term_digit (k : Nat) (c : Char) (rest : List Char) (s : State) (hc : c.isDigit = true) :
    term (k + 4) (c :: rest) s =
      .ok (atoi (digits (c :: rest)), digits (c :: rest),
        (s.pulled (c :: rest) "INT_LITERAL" (digits (c :: rest)).length).pulledN
          (digits (c :: rest)) (if atoi (digits (c :: rest)) = ERROR then 1 else 4)) := by
  have hd : DigitRun (digits (c :: rest)) := digitRun_takeWhile c rest hc
  rw [term]
  simp only [stmt_digit k c rest s hc]
  by_cases he : atoi (digits (c :: rest)) = ERROR
  · simp only [if_pos he]
  · simp only [if_neg he]
    rw [stail_run _ _ _ _ hd]
    rfl

theorem expr_digit (k : Nat) (c : Char) (rest : List Char) (s : State) (hc : c.isDigit = true) :
    expr (k + 5) (c :: rest) s =
      .ok (atoi (digits (c :: rest)), digits (c :: rest),
        (s.pulled (c :: rest) "INT_LITERAL" (digits (c :: rest)).length).pulledN
          (digits (c :: rest)) (if atoi (digits (c :: rest)) = ERROR then 1 else 4)) := by
  have hd : DigitRun (digits (c :: rest)) := digitRun_takeWhile c rest hc
  rw [expr]
  simp only [term_digit k c rest s hc]
  by_cases he : atoi (digits (c :: rest)) = ERROR
  · simp only [if_pos he]
  · simp only [if_neg he]
    rw [ttail_run _ _ _ _ hd]

/-- On every buffer that starts with a digit, `bexpr` returns `ERROR` once
the fuel covers the five nested calls; the buffer is left holding the first
literal only. -/
theorem bexpr_digit (k : Nat) (c : Char) (rest : List Char) (s : State) (hc : c.isDigit = true) :
    bexpr (k + 5) (c :: rest) s =
      .ok (ERROR, digits (c :: rest), s.afterDigits (c :: rest)) := by
  simp only [bexpr, expr_digit k c rest _ hc, State.afterDigits]
  by_cases he : atoi (digits (c :: rest)) = ERROR
  · simp only [if_pos he]
    rw [he]
  · simp only [if_neg he]
    simp [State.pulled, State.pulledN]

/-! ### Buffers that start with neither `(` nor a digit -/

theorem expp_other (k : Nat) (token : List Char) (s : State)
    (hp : charAt token 0 ≠ '(') (hd : (charAt token 0).isDigit = false) :
    expp (k + 1) token s =
      .ok (ERROR, token.take (length_of token),
        (s.pulled token (category_of token) (length_of token)).eprint
          "Syntax Error: Expected a number\n") := by
  have hcat : category_of token ≠ "LEFT_PAREN" := fun h => hp (category_lparen token h)
  have hnum : is_number (token.take (length_of token)) = false := by
    unfold is_number
    rw [charAt_take token _ (length_of_pos token)]
    exact hd
  rw [expp]
  simp only [get_token_eq, State.pulled, if_neg hcat, num, hnum]
  simp

theorem factor_error (k : Nat) (token t : List Char) (s s' : State)
    (h : expp k token s = .ok (ERROR, t, s')) : factor (k + 1) token s = .ok (ERROR, t, s') := by
  rw [factor, h]; simp

theorem stmt_error (k : Nat) (token t : List Char) (s s' : State)
    (h : factor k token s = .ok (ERROR, t, s')) : stmt (k + 1) token s = .ok (ERROR, t, s') := by
  rw [stmt, h]; simp

theorem term_error (k : Nat) (token t : List Char) (s s' : State)
    (h : stmt k token s = .ok (ERROR, t, s')) : term (k + 1) token s = .ok (ERROR, t, s') := by
  rw [term, h]; simp

theorem expr_error (k : Nat) (token t : List Char) (s s' : State)
    (h : term k token s = .ok (ERROR, t, s')) : expr (k + 1) token s = .ok (ERROR, t, s') := by
  rw [expr, h]; simp

theorem bexpr_error (k : Nat) (token t : List Char) (s s' : State)
    (h : expr k token { s with is_right_paren_error := false } = .ok (ERROR, t, s')) :
    bexpr k token s = .ok (ERROR, t, s') := by
  simp [bexpr, h]

theorem bexpr_other (k : Nat) (token : List Char) (s : State)
    (hp : charAt token 0 ≠ '(') (hd : (charAt token 0).isDigit = false) :
    bexpr (k + 5) token s =
      .ok (ERROR, token.take (length_of token),
        (({ s with is_right_paren_error := false }).pulled token (category_of token)
          (length_of token)).eprint "Syntax Error: Expected a number\n") :=
  bexpr_error _ _ _ _ _ (expr_error _ _ _ _ _ (term_error _ _ _ _ _ (stmt_error _ _ _ _ _
    (factor_error _ _ _ _ _ (expp_other k token _ hp hd)))))

/-! ### No evaluation reaches the division -/

theorem good_fuel (token : List Char) : Good token (.error .outOfFuel) := by
  refine ⟨by simp, ?_⟩
  intro v t s' h
  cases h

theorem goodTail_fuel (token : List Char) : GoodTail token (.error .outOfFuel) := by
  refine ⟨by simp, ?_⟩
  intro v t s' h
  cases h

theorem good_error (token t : List Char) (s : State) (h : charAt t 0 = charAt token 0) :
    Good token (.ok (ERROR, t, s)) := by
  refine ⟨by simp, ?_⟩
  intro v t1 s' he
  simp only [Except.ok.injEq, Prod.mk.injEq] at he
  obtain ⟨hv, ht, _⟩ := he
  subst hv; subst ht
  exact ⟨h, fun hne => absurd rfl hne⟩

theorem goodTail_ok (token t : List Char) (v : Int) (s : State)
    (h : charAt t 0 = charAt token 0) : GoodTail token (.ok (v, t, s)) := by
  refine ⟨by simp, ?_⟩
  intro v1 t1 s' he
  simp only [Except.ok.injEq, Prod.mk.injEq] at he
  obtain ⟨_, ht, _⟩ := he
  subst ht
  exact h

theorem goodTail_head {token token1 : List Char} {r : Result}
    (h : GoodTail token1 r) (hh : charAt token1 0 = charAt token 0) : GoodTail token r :=
  ⟨h.1, fun v t s' he => (h.2 v t s' he).trans hh⟩

theorem good_seq (token : List Char) (r : Result) (tail : Int → List Char → State → Result)
    (hr : Good token r) (ht : ∀ v t s, GoodTail t (tail v t s)) :
    Good token (seq r tail) := by
  unfold seq
  cases r with
  | error e => exact hr
  | ok x =>
    obtain ⟨v, t, s1⟩ := x
    obtain ⟨hh, hdig⟩ := hr.2 v t s1 rfl
    by_cases hv : v = ERROR
    · simp only [if_pos hv]
      subst hv
      exact good_error token t s1 hh
    · simp only [if_neg hv]
      obtain ⟨h1, h2⟩ := ht v t s1
      exact ⟨h1, fun v' t' s' he => ⟨(h2 v' t' s' he).trans hh, fun _ => hdig hv⟩⟩

theorem expr_good (n : Nat) (ihT : ∀ token s, Good token (term n token s))
    (ihL : ∀ token s v, GoodTail token (ttail n token s v)) :
    ∀ token s, Good token (expr (n + 1) token s) := by
  intro token s
  rw [expr]
  exact good_seq token _ (fun v t s1 => ttail n t s1 v) (ihT token s) (fun v t s1 => ihL t s1 v)

theorem term_good (n : Nat) (ihT : ∀ token s, Good token (stmt n token s))
    (ihL : ∀ token s v, GoodTail token (stail n token s v)) :
    ∀ token s, Good token (term (n + 1) token s) := by
  intro token s
  rw [term]
  exact good_seq token _ (fun v t s1 => stail n t s1 v) (ihT token s) (fun v t s1 => ihL t s1 v)

theorem stmt_good (n : Nat) (ihT : ∀ token s, Good token (factor n token s))
    (ihL : ∀ token s v, GoodTail token (ftail n token s v)) :
    ∀ token s, Good token (stmt (n + 1) token s) := by
  intro token s
  rw [stmt]
  exact good_seq token _ (fun v t s1 => ftail n t s1 v) (ihT token s) (fun v t s1 => ihL t s1 v)

theorem goodTail_seq (token t1 : List Char) (r : Result)
    (tail : Int → List Char → State → Result) (hh : charAt t1 0 = charAt token 0)
    (hr : Good t1 r) (ht : ∀ v t s, GoodTail t (tail v t s)) : GoodTail token (seq r tail) := by
  have h := good_seq t1 r tail hr ht
  exact ⟨h.1, fun v t s' he => ((h.2 v t s' he).1).trans hh⟩

theorem goodTail_seqE (token t1 : List Char) (r : Result)
    (tail : Int → List Char → State → Result) (hh : charAt t1 0 = charAt token 0)
    (hr : Good t1 r) (ht : ∀ v t s, GoodTail t (tail v t s)) : GoodTail token (seqE r tail) := by
  unfold seqE
  cases r with
  | error e => exact ⟨hr.1, fun v t s' he => by cases he⟩
  | ok x =>
    obtain ⟨v, t, s1⟩ := x
    obtain ⟨hh1, _⟩ := hr.2 v t s1 rfl
    by_cases hv : v = ERROR
    · simp only [if_pos hv]
      exact goodTail_ok token t ERROR s1 (hh1.trans hh)
    · simp only [if_neg hv]
      exact goodTail_head (ht v t s1) (hh1.trans hh)

/-- When the buffer does not start with a digit the tail call is never made. -/
theorem goodTail_seq_nondigit (token t1 : List Char) (r : Result)
    (tail : Int → List Char → State → Result) (hh : charAt t1 0 = charAt token 0)
    (hr : Good t1 r) (hnd : (charAt t1 0).isDigit = false) : GoodTail token (seq r tail) := by
  unfold seq
  cases r with
  | error e => exact ⟨hr.1, fun v t s' he => by cases he⟩
  | ok x =>
    obtain ⟨v, t, s1⟩ := x
    obtain ⟨hh1, hdig⟩ := hr.2 v t s1 rfl
    by_cases hv : v = ERROR
    · simp only [if_pos hv]
      exact goodTail_ok token t v s1 (hh1.trans hh)
    · rw [hdig hv] at hnd
      cases hnd

theorem ite_fst {α β : Type} (c : Prop) [Decidable c] (r : α × β) (x : β) :
    (if c then r else (r.1, x)).1 = r.1 := by
  by_cases h : c <;> simp [h]

theorem add_sub_tok_fst (token : List Char) (s : State) :
    (add_sub_tok token s).1 = (get_token token s).1 := by
  unfold add_sub_tok
  exact ite_fst _ _ _

theorem mul_div_tok_fst (token : List Char) (s : State) :
    (mul_div_tok token s).1 = (get_token token s).1 := by
  unfold mul_div_tok
  exact ite_fst _ _ _

theorem compare_tok_fst (token : List Char) (s : State) :
    (compare_tok token s).1 = (get_token token s).1 := by
  unfold compare_tok
  exact ite_fst _ _ _

theorem expon_tok_fst (token : List Char) (s : State) :
    (expon_tok token s).1 = (get_token token s).1 := by
  unfold expon_tok
  exact ite_fst _ _ _

theorem get_token_category (token : List Char) (s : State) :
    (get_token token s).2.current_category = category_of token := by
  rw [get_token_eq]; rfl

theorem ttail_good (n : Nat) (ihT : ∀ token s, Good token (term n token s))
    (ihL : ∀ token s v, GoodTail token (ttail n token s v)) :
    ∀ token s v, GoodTail token (ttail (n + 1) token s v) := by
  intro token s v
  have hh : charAt (add_sub_tok token s).1 0 = charAt token 0 := by
    rw [add_sub_tok_fst, get_token_head]
  rw [ttail]
  by_cases h1 : charAt token 0 = '+'
  · rw [if_pos h1]
    exact goodTail_seq token _ _ (fun tv t s1 => ttail n t s1 (wrap32 (v + tv))) hh
      (ihT _ _) (fun tv t s1 => ihL t s1 _)
  · rw [if_neg h1]
    by_cases h2 : charAt token 0 = '-'
    · rw [if_pos h2]
      exact goodTail_seq token _ _ (fun tv t s1 => ttail n t s1 (wrap32 (v - tv))) hh
        (ihT _ _) (fun tv t s1 => ihL t s1 _)
    · rw [if_neg h2]
      exact goodTail_ok token token v s rfl

theorem stail_good (n : Nat) (ihT : ∀ token s, Good token (stmt n token s))
    (ihL : ∀ token s v, GoodTail token (stail n token s v)) :
    ∀ token s v, GoodTail token (stail (n + 1) token s v) := by
  intro token s v
  have hh : charAt (mul_div_tok (get_token token s).1 (get_token token s).2).1 0
      = charAt token 0 := by
    rw [mul_div_tok_fst, get_token_head, get_token_head]
  rw [stail]
  by_cases h1 : (get_token token s).2.current_category = "MULT_OP"
  · simp only [if_pos h1]
    exact goodTail_seq token _ _ (fun sv t s1 => stail n t s1 (wrap32 (v * sv))) hh
      (ihT _ _) (fun sv t s1 => ihL t s1 _)
  · simp only [if_neg h1]
    by_cases h2 : (get_token token s).2.current_category = "DIV_OP"
    · simp only [if_pos h2]
      have hc : charAt token 0 = '/' := category_div token (by rw [← get_token_category token s]; exact h2)
      have hnd : (charAt (mul_div_tok (get_token token s).1 (get_token token s).2).1 0).isDigit
          = false := by
        rw [hh, hc]; rfl
      exact goodTail_seq_nondigit token _ _
        (fun sv t s1 => if sv = 0 then .error .divByZero
          else stail n t s1 (wrap32 (Int.tdiv v sv))) hh (ihT _ _) hnd
    · simp only [if_neg h2]
      exact goodTail_ok token _ v _ (get_token_head token s)

theorem ftail_good (n : Nat) (ihT : ∀ token s, Good token (factor n token s))
    (ihL : ∀ token s v, GoodTail token (ftail n token s v)) :
    ∀ token s v, GoodTail token (ftail (n + 1) token s v) := by
  intro token s v
  have hh : charAt (compare_tok (get_token token s).1 (get_token token s).2).1 0
      = charAt token 0 := by
    rw [compare_tok_fst, get_token_head, get_token_head]
  have branch : ∀ f : Int → Int,
      GoodTail token (seqE (factor n (compare_tok (get_token token s).1 (get_token token s).2).1
        (compare_tok (get_token token s).1 (get_token token s).2).2)
        (fun fv t s1 => ftail n t s1 (f fv))) :=
    fun f => goodTail_seqE token _ _ _ hh (ihT _ _) (fun fv t s1 => ihL t s1 _)
  rw [ftail]
  by_cases h1 : (get_token token s).2.current_category = "LESS_THAN_OP"
  · simp only [if_pos h1]
    exact branch (fun fv => cbool (decide (v < fv)))
  simp only [if_neg h1]
  by_cases h2 : (get_token token s).2.current_category = "GREATER_THAN_OP"
  · simp only [if_pos h2]
    exact branch (fun fv => cbool (decide (v > fv)))
  simp only [if_neg h2]
  by_cases h3 : (get_token token s).2.current_category = "NOT_EQUALS_OP"
  · simp only [if_pos h3]
    exact branch (fun fv => cbool (decide (v ≠ fv)))
  simp only [if_neg h3]
  by_cases h4 : (get_token token s).2.current_category = "EQUALS_OP"
  · simp only [if_pos h4]
    exact branch (fun fv => cbool (decide (v = fv)))
  simp only [if_neg h4]
  by_cases h5 : (get_token token s).2.current_category = "GREATER_THAN_OR_EQUAL_OP"
  · simp only [if_pos h5]
    exact branch (fun fv => cbool (decide (v ≥ fv)))
  simp only [if_neg h5]
  by_cases h6 : (get_token token s).2.current_category = "LESS_THAN_OR_EQUAL_OP"
  · simp only [if_pos h6]
    exact branch (fun fv => cbool (decide (v ≤ fv)))
  simp only [if_neg h6]
  exact goodTail_ok token _ v _ (get_token_head token s)

theorem factor_good (n : Nat) (ihX : ∀ token s, Good token (expp n token s))
    (ihF : ∀ token s, Good token (factor n token s)) :
    ∀ token s, Good token (factor (n + 1) token s) := by
  intro token s
  rw [factor]
  refine good_seq token _
    (fun fv t1 s1 =>
      if (get_token t1 s1).2.current_category = "EXPON_OP" then
        seqE (factor n (expon_tok (get_token t1 s1).1 (get_token t1 s1).2).1
            (expon_tok (get_token t1 s1).1 (get_token t1 s1).2).2)
          (fun nf t2 s2 => .ok (pow fv nf, t2, s2))
      else .ok (fv, (get_token t1 s1).1, (get_token t1 s1).2))
    (ihX token s) ?_
  intro fv t1 s1
  by_cases h : (get_token t1 s1).2.current_category = "EXPON_OP"
  · simp only [if_pos h]
    refine goodTail_seqE t1 _ _ _ ?_ (ihF _ _) (fun nf t2 s2 => goodTail_ok t2 t2 _ s2 rfl)
    rw [expon_tok_fst, get_token_head, get_token_head]
  · simp only [if_neg h]
    exact goodTail_ok t1 _ fv _ (get_token_head t1 s1)

theorem expp_good (n : Nat) (ihE : ∀ token s, Good token (expr n token s)) :
    ∀ token s, Good token (expp (n + 1) token s) := by
  intro token s
  rw [expp]
  by_cases h : (get_token token s).2.current_category = "LEFT_PAREN"
  · simp only [if_pos h]
    have hh : charAt (get_token (get_token token s).1 (get_token token s).2).1 0
        = charAt token 0 := by
      rw [get_token_head, get_token_head]
    have g := ihE (get_token (get_token token s).1 (get_token token s).2).1
      (get_token (get_token token s).1 (get_token token s).2).2
    cases hr : expr n (get_token (get_token token s).1 (get_token token s).2).1
        (get_token (get_token token s).1 (get_token token s).2).2 with
    | error e =>
      rw [hr] at g
      exact ⟨g.1, fun v t s' he => by cases he⟩
    | ok x =>
      obtain ⟨v, t, s2⟩ := x
      rw [hr] at g
      obtain ⟨hh1, hdig⟩ := g.2 v t s2 rfl
      by_cases hrp : s2.current_category = "RIGHT_PAREN"
      · simp only [if_pos hrp]
        refine ⟨by simp, ?_⟩
        intro v' t' s' he
        simp only [Except.ok.injEq, Prod.mk.injEq] at he
        obtain ⟨hv, ht, _⟩ := he
        subst hv; subst ht
        refine ⟨?_, fun hne => ?_⟩
        · rw [get_token_head, hh1, hh]
        · rw [← hh]; exact hdig hne
      · simp only [if_neg hrp]
        exact good_error token t _ (hh1.trans hh)
  · simp only [if_neg h]
    unfold num
    by_cases hn : is_number (get_token token s).1 = true
    · simp only [if_pos hn]
      refine ⟨by simp, ?_⟩
      intro v' t' s' he
      simp only [Except.ok.injEq, Prod.mk.injEq] at he
      obtain ⟨_, ht, _⟩ := he
      subst ht
      refine ⟨?_, fun _ => ?_⟩
      · rw [get_token_head, get_token_head]
      · rw [← get_token_head token s]; exact hn
    · simp only [if_neg hn]
      exact good_error token _ _ (get_token_head token s)

/-- The invariant holds of all eight non-terminal functions at every fuel. -/
theorem all_good (n : Nat) :
    (∀ token s, Good token (expp n token s))
    ∧ (∀ token s, Good token (factor n token s))
    ∧ (∀ token s, Good token (stmt n token s))
    ∧ (∀ token s, Good token (term n token s))
    ∧ (∀ token s, Good token (expr n token s))
    ∧ (∀ token s v, GoodTail token (ftail n token s v))
    ∧ (∀ token s v, GoodTail token (stail n token s v))
    ∧ (∀ token s v, GoodTail token (ttail n token s v)) := by
  induction n with
  | zero =>
    refine ⟨?_, ?_, ?_, ?_, ?_, ?_, ?_, ?_⟩
    · intro token s; rw [expp]; exact good_fuel token
    · intro token s; rw [factor]; exact good_fuel token
    · intro token s; rw [stmt]; exact good_fuel token
    · intro token s; rw [term]; exact good_fuel token
    · intro token s; rw [expr]; exact good_fuel token
    · intro token s v; rw [ftail]; exact goodTail_fuel token
    · intro token s v; rw [stail]; exact goodTail_fuel token
    · intro token s v; rw [ttail]; exact goodTail_fuel token
  | succ n ih =>
    obtain ⟨hX, hF, hS, hT, hE, hFt, hSt, hTt⟩ := ih
    exact ⟨expp_good n hE, factor_good n hX hF, stmt_good n hF hFt, term_good n hS hSt,
      expr_good n hT hTt, ftail_good n hF hFt, stail_good n hS hSt, ttail_good n hT hTt⟩

/-- No call of `bexpr` ever executes the division of `stail` with divisor zero. -/
theorem bexpr_no_division_fault (fuel : Nat) (token : List Char) (s : State) :
    bexpr fuel token s ≠ .error .divByZero := by
  have g := (all_good fuel).2.2.2.2.1 token { s with is_right_paren_error := false }
  simp only [bexpr]
  cases hr : expr fuel token { s with is_right_paren_error := false } with
  | error e =>
    rw [hr] at g
    exact g.1
  | ok x =>
    obtain ⟨v, t, s1⟩ := x
    simp only
    split_ifs <;> simp

theorem afterDigits_of_value (s : State) (token : List Char)
    (h : atoi (digits token) ≠ ERROR) :
    (s.afterDigits token).stderr = s.stderr ++ ["Syntax Error: ';' expected\n"]
      ∧ (s.afterDigits token).current_category = "INT_LITERAL"
      ∧ (s.afterDigits token).is_right_paren_error = false
      ∧ (s.afterDigits token).line = s.line + 5 * (digits token).length := by
  simp only [State.afterDigits, if_neg h, State.pulledN, State.pulled, State.eprint]
  refine ⟨trivial, trivial, trivial, ?_⟩
  omega

theorem length_of_le (token : List Char) (h : token ≠ []) :
    length_of token ≤ token.length := by
  rw [(class_table token).2]
  unfold length_table
  split_ifs with h1 h2 h3
  · exact (List.takeWhile_prefix _).length_le
  · cases token with
    | nil => exact absurd rfl h
    | cons a r =>
      cases r with
      | nil => simp [charAt] at h3
      | cons b r2 => simp
  · cases token with
    | nil => exact absurd rfl h
    | cons a r => simp
  · cases token with
    | nil => exact absurd rfl h
    | cons a r => simp

theorem drop_length_takeWhile (p : Char → Bool) (l : List Char) :
    l.drop (l.takeWhile p).length = l.dropWhile p := by
  induction l with
  | nil => simp
  | cons a l ih =>
    by_cases h : p a = true
    · simp [List.takeWhile_cons_of_pos h, List.dropWhile_cons_of_pos h, ih]
    · simp [List.takeWhile_cons_of_neg h, List.dropWhile_cons_of_neg h]

theorem charAt_dropWhile_isDigit (l : List Char) :
    (charAt (l.dropWhile Char.isDigit) 0).isDigit = false := by
  induction l with
  | nil => rfl
  | cons a l ih =>
    by_cases h : a.isDigit = true
    · simpa [List.dropWhile_cons_of_pos h] using ih
    · simpa [List.dropWhile_cons_of_neg h, charAt] using h

theorem bexpr_lparen (fuel : Nat) (rest : List Char) (s : State) :
    bexpr fuel ('(' :: rest) s = .error .outOfFuel := by
  have h := (lparen_out_of_fuel fuel rest { s with is_right_paren_error := false }).2.2.2.2
  simp only [bexpr, h]

/-! ### The rows of the classification table -/

theorem get_token_single (c : Char) (cat : String) (rest : List Char) (s : State)
    (h : (c = '+' ∧ cat = "ADD_OP") ∨ (c = '-' ∧ cat = "SUB_OP") ∨ (c = '*' ∧ cat = "MULT_OP")
      ∨ (c = '/' ∧ cat = "DIV_OP") ∨ (c = '^' ∧ cat = "EXPON_OP")
      ∨ (c = '(' ∧ cat = "LEFT_PAREN") ∨ (c = ')' ∧ cat = "RIGHT_PAREN")
      ∨ (c = ';' ∧ cat = "SEMI_COLON")) :
    get_token (c :: rest) s = ([c], s.pulled (c :: rest) cat 1) := by
  rcases h with h | h | h | h | h | h | h | h <;> obtain ⟨hc, hcat⟩ := h <;> subst hc <;>
    subst hcat <;>
    simp [get_token, check_token, is_valid_operator, is_valid_integer, is_valid_parenthesis,
      is_semi_colon, charAt, digit_test, State.pulled]

theorem category_table_invalid (token : List Char)
    (h : category_table token = "INVALID") :
    digit_test (charAt token 0) = false ∧ charAt token 0 ≠ '+' ∧ charAt token 0 ≠ '-'
      ∧ charAt token 0 ≠ '*' ∧ charAt token 0 ≠ '/' ∧ charAt token 0 ≠ '<'
      ∧ charAt token 0 ≠ '>' ∧ charAt token 0 ≠ '=' ∧ charAt token 0 ≠ '^'
      ∧ charAt token 0 ≠ '!' ∧ charAt token 0 ≠ '(' ∧ charAt token 0 ≠ ')'
      ∧ charAt token 0 ≠ ';' := by
  unfold category_table at h
  by_cases hd : digit_test (charAt token 0) = true
  · rw [if_pos hd] at h; exact absurd h (by decide)
  rw [if_neg hd] at h
  by_cases h1 : charAt token 0 = '+'
  · rw [if_pos h1] at h; exact absurd h (by decide)
  rw [if_neg h1] at h
  by_cases h2 : charAt token 0 = '-'
  · rw [if_pos h2] at h; exact absurd h (by decide)
  rw [if_neg h2] at h
  by_cases h3 : charAt token 0 = '*'
  · rw [if_pos h3] at h; exact absurd h (by decide)
  rw [if_neg h3] at h
  by_cases h4 : charAt token 0 = '/'
  · rw [if_pos h4] at h; exact absurd h (by decide)
  rw [if_neg h4] at h
  by_cases h5 : charAt token 0 = '<'
  · rw [if_pos h5] at h; exact absurd h (ite_str_ne (by decide) (by decide))
  rw [if_neg h5] at h
  by_cases h6 : charAt token 0 = '>'
  · rw [if_pos h6] at h; exact absurd h (ite_str_ne (by decide) (by decide))
  rw [if_neg h6] at h
  by_cases h7 : charAt token 0 = '='
  · rw [if_pos h7] at h; exact absurd h (ite_str_ne (by decide) (by decide))
  rw [if_neg h7] at h
  by_cases h8 : charAt token 0 = '^'
  · rw [if_pos h8] at h; exact absurd h (by decide)
  rw [if_neg h8] at h
  by_cases h9 : charAt token 0 = '!'
  · rw [if_pos h9] at h; exact absurd h (ite_str_ne (by decide) (by decide))
  rw [if_neg h9] at h
  by_cases h10 : charAt token 0 = '('
  · rw [if_pos h10] at h; exact absurd h (by decide)
  rw [if_neg h10] at h
  by_cases h11 : charAt token 0 = ')'
  · rw [if_pos h11] at h; exact absurd h (by decide)
  rw [if_neg h11] at h
  by_cases h12 : charAt token 0 = ';'
  · rw [if_pos h12] at h; exact absurd h (by decide)
  exact ⟨by simpa using hd, h1, h2, h3, h4, h5, h6, h7, h8, h9, h10, h11, h12⟩

theorem get_token_invalid (token : List Char) (s : State)
    (hd : digit_test (charAt token 0) = false) (h1 : charAt token 0 ≠ '+')
    (h2 : charAt token 0 ≠ '-') (h3 : charAt token 0 ≠ '*') (h4 : charAt token 0 ≠ '/')
    (h5 : charAt token 0 ≠ '<') (h6 : charAt token 0 ≠ '>') (h7 : charAt token 0 ≠ '=')
    (h8 : charAt token 0 ≠ '^') (h9 : charAt token 0 ≠ '!') (h10 : charAt token 0 ≠ '(')
    (h11 : charAt token 0 ≠ ')') (h12 : charAt token 0 ≠ ';') :
    get_token token s = (token.take 1, s.pulled token "INVALID" 1) := by
  have hd1 : ¬ digit_test (charAt token 0) = true := by simp [hd]
  have hc : category_of token = "INVALID" := by
    rw [(class_table token).1]
    unfold category_table
    rw [if_neg hd1, if_neg h1, if_neg h2, if_neg h3, if_neg h4, if_neg h5, if_neg h6, if_neg h7,
      if_neg h8, if_neg h9, if_neg h10, if_neg h11, if_neg h12]
  have hl : length_of token = 1 := by
    rw [(class_table token).2]
    unfold length_table
    rw [if_neg hd1, if_neg (by simp [h5, h6, h7, h9])]
  rw [get_token_eq, hc, hl]

/-! ### The scanning loop of `main` -/

theorem charAt_ne_nul (token : List Char) (h : charAt token 0 ≠ Char.ofNat 0) : token ≠ [] := by
  intro he
  rw [he] at h
  exact h rfl

theorem is_blank_ne_nul (c : Char) (h : is_blank c = true) : c ≠ Char.ofNat 0 := by
  intro he
  rw [he] at h
  revert h
  decide

theorem scan_pass_blank (input_line : List Char) (s : State) (m : Main)
    (h : is_blank (charAt (input_line.drop s.line) 0) = true) :
    (scan_pass input_line s m).1 = { s with line := s.line + 1 }
      ∧ (scan_pass input_line s m).2.out_file = m.out_file := by
  unfold scan_pass
  rw [if_pos h]
  by_cases hn : charAt (input_line.drop ({ s with line := s.line + 1 } : State).line) 0 = '\n'
  · simp only [if_pos hn, and_self]
  · simp only [if_neg hn, and_self]

theorem scan_pass_blank_main (input_line : List Char) (s : State) (m : Main)
    (h : is_blank (charAt (input_line.drop s.line) 0) = true) :
    ∃ k, (scan_pass input_line s m).2 = { m with line_count := k } := by
  unfold scan_pass
  rw [if_pos h]
  by_cases hn : charAt (input_line.drop ({ s with line := s.line + 1 } : State).line) 0 = '\n'
  · exact ⟨m.line_count + 1, by simp only [if_pos hn]⟩
  · exact ⟨m.line_count, by simp only [if_neg hn]⟩

theorem scan_pass_token_state (input_line : List Char) (s : State) (m : Main)
    (h : is_blank (charAt (input_line.drop s.line) 0) = false) :
    (scan_pass input_line s m).1 = (get_token (input_line.drop s.line) s).2 := by
  have h1 : ¬ is_blank (charAt (input_line.drop s.line) 0) = true := by simp [h]
  unfold scan_pass
  rw [if_neg h1]
  by_cases hs : (get_token (input_line.drop s.line) s).2.current_category = "SEMI_COLON"
  · simp only [if_pos hs]
  · simp only [if_neg hs]

theorem lexemes_append (a b : List Output) : lexemes (a ++ b) = lexemes a ++ lexemes b := by
  simp [lexemes]

theorem scan_pass_token_out (input_line : List Char) (s : State) (m : Main)
    (h : is_blank (charAt (input_line.drop s.line) 0) = false)
    (hne : input_line.drop s.line ≠ []) :
    lexemes (scan_pass input_line s m).2.out_file
      = lexemes m.out_file ++ [(get_token (input_line.drop s.line) s).1] := by
  have h1 : ¬ is_blank (charAt (input_line.drop s.line) 0) = true := by simp [h]
  have hinv : (get_token (input_line.drop s.line) s).2.current_category = "INVALID" →
      [charAt (get_token (input_line.drop s.line) s).1 0]
        = (get_token (input_line.drop s.line) s).1 := by
    intro hc
    rw [get_token_category, (class_table _).1] at hc
    obtain ⟨hd, h1, h2, h3, h4, h5, h6, h7, h8, h9, h10, h11, h12⟩ :=
      category_table_invalid _ hc
    rw [get_token_invalid _ s hd h1 h2 h3 h4 h5 h6 h7 h8 h9 h10 h11 h12]
    cases hl : input_line.drop s.line with
    | nil => exact absurd hl hne
    | cons a r => simp [charAt]
  unfold scan_pass
  rw [if_neg h1]
  by_cases hi : (get_token (input_line.drop s.line) s).2.current_category = "INVALID"
  · have hs : ¬ (get_token (input_line.drop s.line) s).2.current_category = "SEMI_COLON" := by
      rw [hi]; decide
    have hh := hinv hi
    simp only [ne_eq, hi, not_true_eq_false, if_false,
      show ¬ (("INVALID" : String) = "SEMI_COLON") from by decide]
    rw [lexemes_append]
    simp only [hi] at hh
    simp [lexemes, Output.lexemes, hh]
  · by_cases hs : (get_token (input_line.drop s.line) s).2.current_category = "SEMI_COLON"
    · simp only [if_pos hs, ne_eq, hi, not_false_eq_true, if_true]
      rw [lexemes_append, lexemes_append]
      simp [lexemes, Output.lexemes]
    · simp only [if_neg hs, ne_eq, hi, not_false_eq_true, if_true]
      rw [lexemes_append]
      simp [lexemes, Output.lexemes]

theorem isDigit_not_blank (c : Char) (h : c.isDigit = true) : is_blank c = false := by
  rw [← digit_test_eq_isDigit] at h
  rcases digit_test_cases c h with h | h | h | h | h | h | h | h | h | h <;> subst h <;> rfl

/-- The lexeme of a buffer that starts with a non-blank character holds no
blank character. -/
theorem lexeme_not_blank (token : List Char) (h : is_blank (charAt token 0) = false) :
    ∀ x ∈ token.take (length_of token), is_blank x = false := by
  rw [(class_table token).2]
  unfold length_table
  split_ifs with hd h2 h3
  · rw [take_length_takeWhile]
    intro x hx
    exact isDigit_not_blank x (List.mem_takeWhile_imp hx)
  · cases token with
    | nil => simp
    | cons a r =>
      cases r with
      | nil => simp [charAt] at h3
      | cons b r2 =>
        have hb : b = '=' := by simpa [charAt] using h3
        have ha : is_blank a = false := by simpa [charAt] using h
        intro x hx
        simp only [List.take_succ_cons, List.take_zero, List.mem_cons, List.mem_singleton,
          List.not_mem_nil, or_false] at hx
        rcases hx with hx | hx
        · rw [hx]; exact ha
        · rw [hx, hb]; rfl
  · cases token with
    | nil => simp
    | cons a r =>
      have ha : is_blank a = false := by simpa [charAt] using h
      intro x hx
      simp only [List.take_succ_cons, List.take_zero, List.mem_singleton] at hx
      rw [hx]; exact ha
  · cases token with
    | nil => simp
    | cons a r =>
      have ha : is_blank a = false := by simpa [charAt] using h
      intro x hx
      simp only [List.take_succ_cons, List.take_zero, List.mem_singleton] at hx
      rw [hx]; exact ha

theorem charAt_drop_nul (input_line : List Char) (n : Nat)
    (hnul : Char.ofNat 0 ∉ input_line) :
    charAt (input_line.drop n) 0 = Char.ofNat 0 ↔ input_line.length ≤ n := by
  constructor
  · intro h
    cases hl : input_line.drop n with
    | nil => exact List.drop_eq_nil_iff.mp hl
    | cons a r =>
      rw [hl] at h
      have ha : a = Char.ofNat 0 := by simpa [charAt] using h
      have hmem : a ∈ input_line := List.mem_of_mem_drop (by rw [hl]; exact List.mem_cons_self a r)
      rw [ha] at hmem
      exact absurd hmem hnul
  · intro h
    rw [List.drop_eq_nil_of_le h]
    rfl

theorem scan_line_succ_ok (k : Nat) (input_line : List Char) (s : State) (m : Main)
    (hc : ¬ charAt (input_line.drop s.line) 0 = Char.ofNat 0)
    (hfit : (input_line.drop s.line).length < TSIZE) :
    scan_line (k + 1) input_line s m
      = scan_line k input_line (scan_pass input_line s m).1 (scan_pass input_line s m).2 := by
  have h : ¬ TSIZE ≤ (input_line.drop s.line).length := by omega
  rw [scan_line, if_neg hc, scan_step, if_neg h]

theorem scan_line_succ_overflow (k : Nat) (input_line : List Char) (s : State) (m : Main)
    (hc : ¬ charAt (input_line.drop s.line) 0 = Char.ofNat 0)
    (hov : TSIZE ≤ (input_line.drop s.line).length) :
    scan_line (k + 1) input_line s m = .error .overflow := by
  rw [scan_line, if_neg hc, scan_step, if_pos hov]

theorem scan_pass_token_out_file (input_line : List Char) (s : State) (m : Main)
    (h : is_blank (charAt (input_line.drop s.line) 0) = false) :
    (scan_pass input_line s m).2.out_file
      = m.out_file ++ report m.count (get_token (input_line.drop s.line) s) := by
  have h1 : ¬ is_blank (charAt (input_line.drop s.line) 0) = true := by simp [h]
  unfold scan_pass report
  rw [if_neg h1]
  by_cases hi : (get_token (input_line.drop s.line) s).2.current_category = "INVALID"
  · have hs : ¬ (get_token (input_line.drop s.line) s).2.current_category = "SEMI_COLON" := by
      rw [hi]; decide
    have hi' : ¬ (get_token (input_line.drop s.line) s).2.current_category ≠ "INVALID" :=
      fun hne => hne hi
    simp only [if_neg hs, if_neg hi', List.append_nil]
  · have hi' : (get_token (input_line.drop s.line) s).2.current_category ≠ "INVALID" := hi
    by_cases hs : (get_token (input_line.drop s.line) s).2.current_category = "SEMI_COLON"
    · simp only [if_pos hs, if_pos hi', List.append_assoc]
    · simp only [if_neg hs, if_pos hi', List.append_nil]

/-- On a line that fits the array `token`, the inner loop of `main` reaches
the end of the line within as many passes as characters remain, and the
lexemes it reports, put end to end, are the rest of the line without its
blank characters. -/
theorem scan_line_run (input_line : List Char) (hnul : Char.ofNat 0 ∉ input_line)
    (hlen : input_line.length < TSIZE) :
    ∀ (fuel : Nat) (s : State) (m : Main), s.line ≤ input_line.length →
      input_line.length - s.line ≤ fuel →
      ∃ s' m', scan_line fuel input_line s m = .ok (s', m')
        ∧ s'.line = input_line.length
        ∧ ∃ new, lexemes m'.out_file = lexemes m.out_file ++ new
          ∧ new.flatten = (input_line.drop s.line).filter (fun c => !is_blank c)
          ∧ ∀ l ∈ new, l ≠ [] := by
  have stop : ∀ (fuel : Nat) (s : State) (m : Main), input_line.length ≤ s.line →
      s.line ≤ input_line.length →
      ∃ s' m', scan_line fuel input_line s m = .ok (s', m')
        ∧ s'.line = input_line.length
        ∧ ∃ new, lexemes m'.out_file = lexemes m.out_file ++ new
          ∧ new.flatten = (input_line.drop s.line).filter (fun c => !is_blank c)
          ∧ ∀ l ∈ new, l ≠ [] := by
    intro fuel s m h1 h2
    have hc := (charAt_drop_nul input_line s.line hnul).mpr h1
    refine ⟨s, m, ?_, Nat.le_antisymm h2 h1, [], by simp, ?_, by simp⟩
    · cases fuel with
      | zero => rw [scan_line, if_pos hc]
      | succ k => rw [scan_line, if_pos hc]
    · rw [List.drop_eq_nil_of_le h1]; rfl
  intro fuel
  induction fuel with
  | zero =>
    intro s m hle hfuel
    exact stop 0 s m (by omega) hle
  | succ k ih =>
    intro s m hle hfuel
    by_cases hend : input_line.length ≤ s.line
    · exact stop (k + 1) s m hend hle
    have hlt : s.line < input_line.length := by omega
    have hc : ¬ charAt (input_line.drop s.line) 0 = Char.ofNat 0 :=
      fun h => hend ((charAt_drop_nul input_line s.line hnul).mp h)
    have hne : input_line.drop s.line ≠ [] := charAt_ne_nul _ hc
    rw [scan_line_succ_ok k input_line s m hc (by rw [List.length_drop]; omega)]
    by_cases hb : is_blank (charAt (input_line.drop s.line) 0) = true
    · obtain ⟨hs1, ho1⟩ := scan_pass_blank input_line s m hb
      obtain ⟨s', m', hrun, hline, new, hlex, hcat, hnon⟩ :=
        ih (scan_pass input_line s m).1 (scan_pass input_line s m).2
          (by rw [hs1]; exact hlt) (by rw [hs1]; show input_line.length - (s.line + 1) ≤ k; omega)
      refine ⟨s', m', hrun, hline, new, ?_, ?_, hnon⟩
      · rw [hlex, ho1]
      · rw [hcat, hs1]
        show List.filter _ (input_line.drop (s.line + 1)) = _
        rw [← List.drop_drop]
        cases hl : input_line.drop s.line with
        | nil => exact absurd hl hne
        | cons a r =>
          have ha : is_blank a = true := by rw [hl] at hb; simpa [charAt] using hb
          simp [ha]
    · have hb1 : is_blank (charAt (input_line.drop s.line) 0) = false := by simpa using hb
      have hs1 := scan_pass_token_state input_line s m hb1
      have ho1 := scan_pass_token_out input_line s m hb1 hne
      have hlen : length_of (input_line.drop s.line) ≤ input_line.length - s.line := by
        have := length_of_le _ hne
        rwa [List.length_drop] at this
      have hpos := length_of_pos (input_line.drop s.line)
      have hline1 : (scan_pass input_line s m).1.line
          = s.line + length_of (input_line.drop s.line) := by
        rw [hs1, get_token_eq]; rfl
      have htok : (get_token (input_line.drop s.line) s).1
          = (input_line.drop s.line).take (length_of (input_line.drop s.line)) := by
        rw [get_token_eq]
      obtain ⟨s', m', hrun, hline, new, hlex, hcat, hnon⟩ :=
        ih (scan_pass input_line s m).1 (scan_pass input_line s m).2
          (by rw [hline1]; omega) (by rw [hline1]; omega)
      refine ⟨s', m', hrun, hline, (get_token (input_line.drop s.line) s).1 :: new, ?_, ?_, ?_⟩
      · rw [hlex, ho1]; simp
      · rw [List.flatten_cons, hcat, hline1, ← List.drop_drop, htok]
        have hsplit := List.take_append_drop (length_of (input_line.drop s.line))
          (input_line.drop s.line)
        have hfil : List.filter (fun c => !is_blank c)
            ((input_line.drop s.line).take (length_of (input_line.drop s.line)))
            = (input_line.drop s.line).take (length_of (input_line.drop s.line)) := by
          rw [List.filter_eq_self]
          intro a ha
          simp [lexeme_not_blank _ hb1 a ha]
        conv_rhs => rw [← hsplit, List.filter_append, hfil]
      · intro l hl
        rcases List.mem_cons.mp hl with h | h
        · rw [h, htok]
          cases hd : input_line.drop s.line with
          | nil => exact absurd hd hne
          | cons a r =>
            cases hn : length_of (a :: r) with
            | zero => rw [hd] at hpos; omega
            | succ j => simp
        · exact hnon l h

/-- Every `get_token` call of a run of the inner loop of `main` that
reaches the end of the line is made on the text at the cursor, which is not
empty, fits the array `token` and does not start with a blank. -/
theorem scan_line_calls (input_line : List Char) :
    ∀ (fuel : Nat) (s : State) (m : Main) (s' : State) (m' : Main),
      scan_line fuel input_line s m = .ok (s', m') →
      ∃ new, s'.calls = s.calls ++ new
        ∧ ∀ e ∈ new, e.2 = input_line.drop e.1 ∧ e.2 ≠ [] ∧ e.2.length < TSIZE
            ∧ is_blank (charAt e.2 0) = false := by
  intro fuel
  induction fuel with
  | zero =>
    intro s m s' m' h
    rw [scan_line] at h
    by_cases hc : charAt (input_line.drop s.line) 0 = Char.ofNat 0
    · rw [if_pos hc] at h
      simp only [Except.ok.injEq, Prod.mk.injEq] at h
      exact ⟨[], by rw [← h.1]; simp, by simp⟩
    · rw [if_neg hc] at h; cases h
  | succ k ih =>
    intro s m s' m' h
    by_cases hc : charAt (input_line.drop s.line) 0 = Char.ofNat 0
    · rw [scan_line, if_pos hc] at h
      simp only [Except.ok.injEq, Prod.mk.injEq] at h
      exact ⟨[], by rw [← h.1]; simp, by simp⟩
    · by_cases hov : TSIZE ≤ (input_line.drop s.line).length
      · rw [scan_line_succ_overflow k input_line s m hc hov] at h
        cases h
      · have hfit : (input_line.drop s.line).length < TSIZE := by omega
        rw [scan_line_succ_ok k input_line s m hc hfit] at h
        obtain ⟨new, hcalls, hall⟩ := ih _ _ _ _ h
        by_cases hb : is_blank (charAt (input_line.drop s.line) 0) = true
        · rw [(scan_pass_blank input_line s m hb).1] at hcalls
          exact ⟨new, hcalls, hall⟩
        · have hb1 : is_blank (charAt (input_line.drop s.line) 0) = false := by
            simpa using hb
          rw [scan_pass_token_state input_line s m hb1, get_token_eq] at hcalls
          refine ⟨(s.line, input_line.drop s.line) :: new, ?_, ?_⟩
          · rw [hcalls]; simp [State.pulled]
          · intro e he
            rcases List.mem_cons.mp he with h1 | h1
            · rw [h1]
              exact ⟨rfl, charAt_ne_nul _ hc, hfit, hb1⟩
            · exact hall e h1

/-- On a text that fits the array `token`, the inner loop of `main` steps
over a run of blanks one character per pass, without calling `get_token`
and without writing anything. -/
theorem scan_line_skip (fuel : Nat) (rest : List Char) :
    ∀ (ws pre : List Char) (s : State) (m : Main), (∀ c ∈ ws, is_blank c = true) →
      (ws ++ rest).length < TSIZE →
      ∃ n, scan_line (fuel + ws.length) (pre ++ ws ++ rest) { s with line := pre.length } m
        = scan_line fuel (pre ++ ws ++ rest) { s with line := pre.length + ws.length }
            { m with line_count := n } := by
  intro ws
  induction ws with
  | nil =>
    intro pre s m _ _
    exact ⟨m.line_count, rfl⟩
  | cons c ws ih =>
    intro pre s m hws hlen
    have hcb : is_blank c = true := hws c (List.mem_cons_self c ws)
    have hdrop : (pre ++ c :: ws ++ rest).drop pre.length = c :: (ws ++ rest) := by
      rw [List.append_assoc, List.drop_left]; rfl
    have hc : ¬ charAt ((pre ++ c :: ws ++ rest).drop
        ({ s with line := pre.length } : State).line) 0 = Char.ofNat 0 := by
      show ¬ charAt ((pre ++ c :: ws ++ rest).drop pre.length) 0 = Char.ofNat 0
      rw [hdrop]
      exact is_blank_ne_nul c hcb
    have hb : is_blank (charAt ((pre ++ c :: ws ++ rest).drop
        ({ s with line := pre.length } : State).line) 0) = true := by
      show is_blank (charAt ((pre ++ c :: ws ++ rest).drop pre.length) 0) = true
      rw [hdrop]
      exact hcb
    have hfit : ((pre ++ c :: ws ++ rest).drop
        ({ s with line := pre.length } : State).line).length < TSIZE := by
      show ((pre ++ c :: ws ++ rest).drop pre.length).length < TSIZE
      rw [hdrop]
      simpa using hlen
    have hlen' : (ws ++ rest).length < TSIZE := by
      have : (c :: ws ++ rest).length = (ws ++ rest).length + 1 := by simp
      omega
    have hlist : pre ++ c :: ws ++ rest = (pre ++ [c]) ++ ws ++ rest := by simp
    obtain ⟨k, hk⟩ :=
      scan_pass_blank_main (pre ++ c :: ws ++ rest) { s with line := pre.length } m hb
    obtain ⟨n, hn⟩ := ih (pre ++ [c]) s { m with line_count := k }
      (fun x hx => hws x (List.mem_cons_of_mem c hx)) hlen'
    have hs1 := (scan_pass_blank (pre ++ c :: ws ++ rest) { s with line := pre.length } m hb).1
    refine ⟨n, ?_⟩
    show scan_line (fuel + ws.length + 1) _ _ _ = _
    rw [scan_line_succ_ok _ _ _ _ hc hfit, hs1, hk, hlist]
    have e1 : ({ ({ s with line := pre.length } : State) with
        line := ({ s with line := pre.length } : State).line + 1 } : State)
        = { s with line := (pre ++ [c]).length } := by simp
    rw [e1, hn]
    have e2 : (pre ++ [c]).length + ws.length = pre.length + (c :: ws).length := by
      simp; omega
    rw [e2]

/-! ### Every run of `bexpr`, by first character and call depth -/

theorem expp_zero (token : List Char) (s : State) : expp 0 token s = .error .outOfFuel := by
  rw [expp]

theorem factor_small (k : Nat) (hk : k ≤ 1) (token : List Char) (s : State) :
    factor k token s = .error .outOfFuel := by
  cases k with
  | zero => rw [factor]
  | succ j =>
    have hj : j = 0 := by omega
    subst hj
    rw [factor, expp_zero]

theorem stmt_small (k : Nat) (hk : k ≤ 2) (token : List Char) (s : State) :
    stmt k token s = .error .outOfFuel := by
  cases k with
  | zero => rw [stmt]
  | succ j => rw [stmt, factor_small j (by omega)]

theorem term_small (k : Nat) (hk : k ≤ 3) (token : List Char) (s : State) :
    term k token s = .error .outOfFuel := by
  cases k with
  | zero => rw [term]
  | succ j => rw [term, stmt_small j (by omega)]

theorem expr_small (k : Nat) (hk : k ≤ 4) (token : List Char) (s : State) :
    expr k token s = .error .outOfFuel := by
  cases k with
  | zero => rw [expr]
  | succ j => rw [expr, term_small j (by omega)]

theorem bexpr_small (k : Nat) (hk : k ≤ 4) (token : List Char) (s : State) :
    bexpr k token s = .error .outOfFuel := by
  simp only [bexpr, expr_small k hk]

theorem charAt_cons_of_eq (token : List Char) (c : Char) (h : charAt token 0 = c)
    (hc : c ≠ Char.ofNat 0) : ∃ rest, token = c :: rest := by
  cases token with
  | nil => exact absurd h.symm hc
  | cons a r =>
    have ha : a = c := by simpa [charAt] using h
    exact ⟨r, by rw [ha]⟩

/-- Every run of `bexpr`: out of fuel, or `ERROR` with the globals that the
first character of the buffer determines. -/
theorem bexpr_cases (fuel : Nat) (token : List Char) (s : State) :
    bexpr fuel token s = .error .outOfFuel
      ∨ (∃ c rest, token = c :: rest ∧ c.isDigit = true
          ∧ bexpr fuel token s = .ok (ERROR, digits token, s.afterDigits token))
      ∨ (charAt token 0 ≠ '(' ∧ (charAt token 0).isDigit = false
          ∧ bexpr fuel token s = .ok (ERROR, token.take (length_of token),
              (({ s with is_right_paren_error := false }).pulled token (category_of token)
                (length_of token)).eprint "Syntax Error: Expected a number\n")) := by
  by_cases hk : fuel ≤ 4
  · exact Or.inl (bexpr_small fuel hk token s)
  obtain ⟨k, rfl⟩ : ∃ k, fuel = k + 5 := ⟨fuel - 5, by omega⟩
  by_cases hp : charAt token 0 = '('
  · obtain ⟨rest, hr⟩ := charAt_cons_of_eq token '(' hp (by decide)
    rw [hr]
    exact Or.inl (bexpr_lparen _ rest s)
  by_cases hd : (charAt token 0).isDigit = true
  · have hne : charAt token 0 ≠ Char.ofNat 0 := by
      intro h0; rw [h0] at hd; revert hd; decide
    obtain ⟨rest, hr⟩ := charAt_cons_of_eq token _ rfl hne
    refine Or.inr (Or.inl ⟨charAt token 0, rest, hr, hd, ?_⟩)
    rw [hr]
    have hd' : (charAt token 0).isDigit = true := hd
    exact bexpr_digit k _ rest s hd'
  · have hd1 : (charAt token 0).isDigit = false := by simpa using hd
    exact Or.inr (Or.inr ⟨hp, hd1, bexpr_other k token s hp hd1⟩)

/-! ### `get_token` on the lexeme it left behind -/

theorem category_table_congr (t1 t2 : List Char) (h0 : charAt t1 0 = charAt t2 0)
    (h1 : (charAt t2 0 = '<' ∨ charAt t2 0 = '>' ∨ charAt t2 0 = '=' ∨ charAt t2 0 = '!') →
      (charAt t1 1 = '=' ↔ charAt t2 1 = '=')) :
    category_table t1 = category_table t2 := by
  unfold category_table
  rw [h0]
  by_cases hf : charAt t2 0 = '<' ∨ charAt t2 0 = '>' ∨ charAt t2 0 = '=' ∨ charAt t2 0 = '!'
  · simp only [h1 hf]
  · simp only [not_or] at hf
    obtain ⟨h5, h6, h7, h9⟩ := hf
    simp only [if_neg h5, if_neg h6, if_neg h7, if_neg h9]

theorem length_table_congr (t1 t2 : List Char) (hd : ¬ digit_test (charAt t2 0) = true)
    (h0 : charAt t1 0 = charAt t2 0)
    (h1 : (charAt t2 0 = '<' ∨ charAt t2 0 = '>' ∨ charAt t2 0 = '=' ∨ charAt t2 0 = '!') →
      (charAt t1 1 = '=' ↔ charAt t2 1 = '=')) :
    length_table t1 = length_table t2 := by
  unfold length_table
  rw [h0, if_neg hd, if_neg hd]
  by_cases hf : charAt t2 0 = '<' ∨ charAt t2 0 = '>' ∨ charAt t2 0 = '=' ∨ charAt t2 0 = '!'
  · simp only [if_pos hf, h1 hf]
  · simp only [if_neg hf]

theorem charAt_take_two (token : List Char) : charAt (token.take 2) 1 = charAt token 1 := by
  cases token with
  | nil => rfl
  | cons a r =>
    cases r with
    | nil => rfl
    | cons b r2 => rfl

theorem charAt_take_one (token : List Char) : charAt (token.take 1) 1 = Char.ofNat 0 := by
  cases token with
  | nil => rfl
  | cons a r => rfl

/-- Classifying the lexeme that `get_token` cuts out of a buffer gives the
same category and the same lexeme length as classifying the buffer. -/
theorem class_of_lexeme (token : List Char) :
    category_of (token.take (length_of token)) = category_of token
      ∧ length_of (token.take (length_of token)) = length_of token := by
  by_cases hd : digit_test (charAt token 0) = true
  · cases token with
    | nil => simp [charAt, digit_test] at hd
    | cons c r =>
      have hc : c.isDigit = true := by
        rw [← digit_test_eq_isDigit]; simpa [charAt] using hd
      have hl : length_of (c :: r) = ((c :: r).takeWhile Char.isDigit).length := by
        unfold length_of; rw [get_token_digit c r _ hc]; rfl
      have hcat : category_of (c :: r) = "INT_LITERAL" := by
        unfold category_of; rw [get_token_digit c r _ hc]; rfl
      have hrun := digitRun_takeWhile c r hc
      rw [hl, take_length_takeWhile, hcat]
      unfold category_of length_of
      rw [get_token_run _ _ hrun]
      exact ⟨rfl, rfl⟩
  · have h0 : charAt (token.take (length_of token)) 0 = charAt token 0 :=
      charAt_take token _ (length_of_pos token)
    have h1 : (charAt token 0 = '<' ∨ charAt token 0 = '>' ∨ charAt token 0 = '='
        ∨ charAt token 0 = '!') →
        (charAt (token.take (length_of token)) 1 = '=' ↔ charAt token 1 = '=') := by
      intro hf
      have hl : length_of token = if charAt token 1 = '=' then 2 else 1 := by
        rw [(class_table token).2]
        unfold length_table
        rw [if_neg hd, if_pos hf]
      by_cases he : charAt token 1 = '='
      · rw [hl, if_pos he, charAt_take_two]
      · rw [hl, if_neg he, charAt_take_one]
        constructor
        · intro h; exact absurd h (by decide : ¬ (Char.ofNat 0 = '='))
        · intro h; exact absurd h he
    have hd' : ¬ digit_test (charAt token 0) = true := hd
    constructor
    · rw [(class_table _).1, (class_table token).1]
      exact category_table_congr _ _ h0 h1
    · exact ((class_table _).2.trans (length_table_congr _ _ hd' h0 h1)).trans
        (class_table token).2.symm

/-- A second `get_token` on the lexeme the first one left in the buffer. -/
theorem get_token_again (token : List Char) (s : State) :
    get_token (get_token token s).1 (get_token token s).2
      = ((get_token token s).1,
          (get_token token s).2.pulled (get_token token s).1 (category_of token)
            (length_of token)) := by
  obtain ⟨hc, hl⟩ := class_of_lexeme token
  rw [get_token_eq (get_token token s).1 (get_token token s).2]
  have ht : (get_token token s).1 = token.take (length_of token) := by rw [get_token_eq]
  rw [ht, hc, hl, List.take_take, Nat.min_self]

/-! ### Progress and termination of the scanning loop -/

/-- One pass of the inner loop of `main`, entered with a character at the
cursor, moves the cursor forward and not past the end of the line. -/
theorem scan_pass_advance (input_line : List Char) (s : State) (m : Main)
    (hc : charAt (input_line.drop s.line) 0 ≠ Char.ofNat 0) :
    s.line < (scan_pass input_line s m).1.line
      ∧ (scan_pass input_line s m).1.line ≤ input_line.length := by
  have hne : input_line.drop s.line ≠ [] := charAt_ne_nul _ hc
  have hlt : s.line < input_line.length := by
    by_contra hge
    exact hne (List.drop_eq_nil_of_le (by omega))
  by_cases hb : is_blank (charAt (input_line.drop s.line) 0) = true
  · rw [(scan_pass_blank input_line s m hb).1]
    exact ⟨Nat.lt_succ_self _, hlt⟩
  · have hb1 : is_blank (charAt (input_line.drop s.line) 0) = false := by simpa using hb
    have hpos := length_of_pos (input_line.drop s.line)
    have hle := length_of_le _ hne
    rw [List.length_drop] at hle
    have hline : (scan_pass input_line s m).1.line
        = s.line + length_of (input_line.drop s.line) := by
      rw [scan_pass_token_state input_line s m hb1, get_token_eq]; rfl
    rw [hline]
    constructor <;> omega

/-- When the text at the cursor fits the array `token`, the inner loop of
`main` stops within as many passes as characters lie between the cursor and
the end of the line, with the cursor still within the line. -/
theorem scan_line_terminates (input_line : List Char) :
    ∀ (fuel : Nat) (s : State) (m : Main), input_line.length - s.line ≤ fuel →
      input_line.length - s.line < TSIZE →
      ∃ s' m', scan_line fuel input_line s m = .ok (s', m')
        ∧ s.line ≤ s'.line ∧ (s.line ≤ input_line.length → s'.line ≤ input_line.length) := by
  intro fuel
  induction fuel with
  | zero =>
    intro s m hfuel _
    have hc : charAt (input_line.drop s.line) 0 = Char.ofNat 0 := by
      rw [List.drop_eq_nil_of_le (by omega)]; rfl
    exact ⟨s, m, by rw [scan_line, if_pos hc], Nat.le_refl _, fun h => h⟩
  | succ k ih =>
    intro s m hfuel hfit
    by_cases hc : charAt (input_line.drop s.line) 0 = Char.ofNat 0
    · exact ⟨s, m, by rw [scan_line, if_pos hc], Nat.le_refl _, fun h => h⟩
    · obtain ⟨h1, h2⟩ := scan_pass_advance input_line s m hc
      obtain ⟨s', m', hrun, hle, hin⟩ :=
        ih (scan_pass input_line s m).1 (scan_pass input_line s m).2 (by omega) (by omega)
      refine ⟨s', m', ?_, by omega, fun _ => hin h2⟩
      rw [scan_line_succ_ok k input_line s m hc (by rw [List.length_drop]; exact hfit)]
      exact hrun

/-- A pass of the inner loop of `main` entered with `TSIZE` or more
characters at the cursor overflows the array `token`: the loop does not
reach the end of the line. -/
theorem scan_line_overflow (k : Nat) (input_line : List Char) (s : State) (m : Main)
    (hov : TSIZE ≤ (input_line.drop s.line).length)
    (hc : charAt (input_line.drop s.line) 0 ≠ Char.ofNat 0) :
    scan_line (k + 1) input_line s m = .error .overflow :=
  scan_line_succ_overflow k input_line s m hc hov

/-! ### What the evaluator does with a division -/

/-- Whenever `stail` finds a division operator at the start of the buffer it
returns `ERROR` without dividing: `mul_div_tok` and then `stmt` read the same
`/` again, and `num` reports that a number was expected. -/
theorem stail_division_operator (k : Nat) (rest : List Char) (s : State) (subtotal : Int) :
    stail (k + 4) ('/' :: rest) s subtotal
      = .ok (ERROR, ['/'],
          (((s.pulled ('/' :: rest) "DIV_OP" 1).pulled ['/'] "DIV_OP" 1).pulled ['/']
            "DIV_OP" 1).eprint "Syntax Error: Expected a number\n") := by
  have g : ∀ (r : List Char) (t : State),
      get_token ('/' :: r) t = (['/'], t.pulled ('/' :: r) "DIV_OP" 1) :=
    fun r t => get_token_single '/' "DIV_OP" r t (by simp)
  have hcat : category_of ['/'] = "DIV_OP" := by
    unfold category_of; rw [g]; rfl
  have hlen : length_of ['/'] = 1 := by
    unfold length_of; rw [g]; rfl
  have hm : ∀ t : State, mul_div_tok ['/'] t = (['/'], t.pulled ['/'] "DIV_OP" 1) := by
    intro t
    unfold mul_div_tok
    rw [g]
    simp [State.pulled]
  have hstmt : ∀ t : State, stmt (k + 3) ['/'] t
      = .ok (ERROR, ['/'],
          (t.pulled ['/'] "DIV_OP" 1).eprint "Syntax Error: Expected a number\n") := by
    intro t
    have h := stmt_error _ _ _ _ _ (factor_error _ _ _ _ _
      (expp_other k ['/'] t (by decide) (by decide)))
    rw [hcat, hlen] at h
    exact h
  have h1 : ¬ ((['/'], s.pulled ('/' :: rest) "DIV_OP" 1) : List Char × State).2.current_category
      = "MULT_OP" := by
    show ¬ ("DIV_OP" : String) = "MULT_OP"
    decide
  have h2 : ((['/'], s.pulled ('/' :: rest) "DIV_OP" 1) : List Char × State).2.current_category
      = "DIV_OP" := rfl
  rw [stail]
  rw [g]
  rw [if_neg h1, if_pos h2]
  simp only [hm, hstmt]
  rfl

/-- A run of characters that satisfy `p`, followed by one that does not, is
what `takeWhile p` keeps. -/
theorem takeWhile_append_stop (p : Char → Bool) (a : List Char) (b : Char) (r : List Char)
    (ha : ∀ c ∈ a, p c = true) (hb : p b = false) : (a ++ b :: r).takeWhile p = a := by
  induction a with
  | nil => simp [List.takeWhile_cons, hb]
  | cons x a ih =>
    have hx : p x = true := ha x (List.mem_cons_self x a)
    simp only [List.cons_append, List.takeWhile_cons_of_pos hx]
    rw [ih (fun c hc => ha c (List.mem_cons_of_mem x hc))]

/-- After the first call on the buffer, every `get_token` call of a run of
`bexpr` on a buffer that starts with a digit is on the first literal. -/
theorem afterDigits_calls (s : State) (token : List Char) :
    ∃ more, (s.afterDigits token).calls = s.calls ++ (s.line, token) :: more
      ∧ ∀ e ∈ more, e.2 = digits token := by
  by_cases hv : atoi (digits token) = ERROR
  · refine ⟨[(s.line + (digits token).length, digits token)], ?_, by simp⟩
    simp only [State.afterDigits, if_pos hv, State.pulledN, State.pulled]
    simp
  · refine ⟨[(s.line + (digits token).length, digits token),
      (s.line + (digits token).length + (digits token).length, digits token),
      (s.line + (digits token).length + (digits token).length + (digits token).length,
        digits token),
      (s.line + (digits token).length + (digits token).length + (digits token).length
        + (digits token).length, digits token)], ?_, by simp⟩
    simp only [State.afterDigits, if_neg hv, State.pulledN, State.pulled, State.eprint]
    simp

/-! ### What `atoi` makes of a literal -/

/-- On the leading digit run of a buffer `atoi` yields the low 32 bits of
the literal's value, taken at most `LONG_MAX`. -/
theorem atoi_digits (token : List Char) :
    atoi (digits token) = wrap32 (Int.ofNat (min (literal_value token) LONG_MAX)) := by
  unfold atoi digits literal_value
  rw [takeWhile_idem]

/-- A literal that fits an `int` is converted to its value. -/
theorem atoi_small (token : List Char) (h : literal_value token ≤ 2147483647) :
    atoi (digits token) = Int.ofNat (literal_value token) := by
  rw [atoi_digits, Nat.min_eq_left (by unfold LONG_MAX; omega)]
  unfold wrap32
  simp only [Int.ofNat_eq_coe]
  omega

/-- A literal of at least `LONG_MAX` is converted to -1. -/
theorem atoi_saturated (token : List Char) (h : LONG_MAX ≤ literal_value token) :
    atoi (digits token) = ERROR := by
  rw [atoi_digits, Nat.min_eq_right h]
  decide

/-! ## The claims -/

/-- C1 (code defect): on the statement `7 / 2 ;` the evaluator does not
produce the quotient 3. `bexpr` returns `ERROR`, having cut the buffer to the
first literal `7`, left the category at `INT_LITERAL` and printed the
"';' expected" message. -/
theorem c1_bexpr_seven_div_two (k : Nat) (s : State) :
    ∃ s', bexpr (k + 5) "7 / 2 ;".toList s = .ok (ERROR, "7".toList, s')
      ∧ s'.current_category = "INT_LITERAL"
      ∧ s'.stderr = s.stderr ++ ["Syntax Error: ';' expected\n"]
      ∧ ERROR ≠ 3 := by
  have h := afterDigits_of_value s "7 / 2 ;".toList (by decide)
  exact ⟨_, bexpr_digit k '7' " / 2 ;".toList s (by decide), h.2.1, h.1, by decide⟩

/-- C2 (code defect): on the statement `2 * 3 < 4 ;` the evaluator does not
produce `2 * (3 < 4) = 2`. `bexpr` returns `ERROR` with the buffer cut to the
first literal `2`; neither the multiplication nor the comparison is reached. -/
theorem c2_bexpr_mul_compare (k : Nat) (s : State) :
    ∃ s', bexpr (k + 5) "2 * 3 < 4 ;".toList s = .ok (ERROR, "2".toList, s')
      ∧ s'.current_category = "INT_LITERAL"
      ∧ s'.stderr = s.stderr ++ ["Syntax Error: ';' expected\n"]
      ∧ ERROR ≠ 2 := by
  have h := afterDigits_of_value s "2 * 3 < 4 ;".toList (by decide)
  exact ⟨_, bexpr_digit k '2' " * 3 < 4 ;".toList s (by decide), h.2.1, h.1, by decide⟩

/-- C3 (code defect): on the statement `2 ^ 3 ^ 2 ;` the evaluator does not
produce `2 ^ (3 ^ 2) = 512`. `bexpr` returns `ERROR` with the buffer cut to
the first literal `2`; the exponentiation is not reached. -/
theorem c3_bexpr_exponent_chain (k : Nat) (s : State) :
    ∃ s', bexpr (k + 5) "2 ^ 3 ^ 2 ;".toList s = .ok (ERROR, "2".toList, s')
      ∧ s'.current_category = "INT_LITERAL"
      ∧ s'.stderr = s.stderr ++ ["Syntax Error: ';' expected\n"]
      ∧ ERROR ≠ 512 := by
  have h := afterDigits_of_value s "2 ^ 3 ^ 2 ;".toList (by decide)
  exact ⟨_, bexpr_digit k '2' " ^ 3 ^ 2 ;".toList s (by decide), h.2.1, h.1, by decide⟩

/-- C4 (code defect): on the statements `10 - 3 - 2 ;` and `20 / 4 / 5 ;` the
evaluator produces neither `(10 - 3) - 2 = 5` nor `(20 / 4) / 5 = 1`. In both
cases `bexpr` returns `ERROR` with the buffer cut to the first literal. -/
theorem c4_bexpr_left_assoc_chains (k : Nat) (s : State) :
    (∃ s', bexpr (k + 5) "10 - 3 - 2 ;".toList s = .ok (ERROR, "10".toList, s')
      ∧ s'.stderr = s.stderr ++ ["Syntax Error: ';' expected\n"])
    ∧ (∃ s', bexpr (k + 5) "20 / 4 / 5 ;".toList s = .ok (ERROR, "20".toList, s')
      ∧ s'.stderr = s.stderr ++ ["Syntax Error: ';' expected\n"])
    ∧ ERROR ≠ 5 ∧ ERROR ≠ 1 := by
  have h1 := afterDigits_of_value s "10 - 3 - 2 ;".toList (by decide)
  have h2 := afterDigits_of_value s "20 / 4 / 5 ;".toList (by decide)
  exact ⟨⟨_, bexpr_digit k '1' "0 - 3 - 2 ;".toList s (by decide), h1.1⟩,
    ⟨_, bexpr_digit k '2' "0 / 4 / 5 ;".toList s (by decide), h2.1⟩, by decide, by decide⟩

/-- C5 (code defect): on the statement `(2 + 3) * 4 ;` the evaluator does not
produce 20, nor anything else: whatever the call depth allowed, `bexpr` has
not returned, because `expp` re-reads the `(` from the same buffer and
recurses. -/
theorem c5_bexpr_parenthesized_product (fuel : Nat) (s : State) :
    bexpr fuel "(2 + 3) * 4 ;".toList s = .error .outOfFuel := by
  exact bexpr_lparen fuel "2 + 3) * 4 ;".toList s

/-- C6 (code defect): a well-formed expression without `;` does not always
make `bexpr` return `ERROR`. On `1 + 1` it does (with the "';' expected"
message), but on the parenthesised expression `(1 + 1)` `bexpr` has not
returned whatever the call depth allowed. -/
theorem c6_bexpr_missing_semicolon (fuel : Nat) (s : State) :
    bexpr fuel "(1 + 1)".toList s = .error .outOfFuel
      ∧ ∃ s', bexpr (fuel + 5) "1 + 1".toList s = .ok (ERROR, "1".toList, s')
          ∧ s'.stderr = s.stderr ++ ["Syntax Error: ';' expected\n"] := by
  have h := afterDigits_of_value s "1 + 1".toList (by decide)
  exact ⟨bexpr_lparen fuel "1 + 1)".toList s,
    _, bexpr_digit fuel '1' " + 1".toList s (by decide), h.1⟩

/-- C7 (code defect): on `(1 + 2 ;`, an unmatched left parenthesis, `bexpr`
does not return `ERROR` with `is_right_paren_error` set: whatever the call
depth allowed, it has not returned at all, so the branch of `expp` that sets
the flag is never reached. -/
theorem c7_bexpr_unmatched_lparen (fuel : Nat) (s : State) :
    bexpr fuel "(1 + 2 ;".toList s = .error .outOfFuel
      ∧ ∀ v t s', bexpr fuel "(1 + 2 ;".toList s ≠ .ok (v, t, s') := by
  have h : bexpr fuel "(1 + 2 ;".toList s = .error .outOfFuel :=
    bexpr_lparen fuel "1 + 2 ;".toList s
  refine ⟨h, ?_⟩
  intro v t s' he
  rw [h] at he
  cases he

/-- C8: division by zero is an error, not a crash. For every integer literal
`a` (a non-empty string of digits), `bexpr` on `a / 0 ;` returns `ERROR` once
the fuel covers its five nested calls, leaving the literal `a` in the buffer,
and every `get_token` call after the first was on that literal: the `/` and
the `0` are never read. Whenever `stail` does find a division operator at the
start of its buffer, it returns `ERROR` with the "Expected a number" message
instead of dividing. Hence no call of `bexpr` or of `stail`, on any buffer,
with any subtotal and at any call depth, executes the division of `stail`
with divisor zero. -/
theorem c8_division_by_zero (a : List Char) (hne : a ≠ [])
    (hdig : ∀ c ∈ a, c.isDigit = true) :
    (∀ (k : Nat) (s : State),
        ∃ s', bexpr (k + 5) (a ++ " / 0 ;".toList) s = .ok (ERROR, a, s')
          ∧ ∃ more, s'.calls = s.calls ++ (s.line, a ++ " / 0 ;".toList) :: more
            ∧ ∀ e ∈ more, e.2 = a)
      ∧ (∀ (k : Nat) (rest : List Char) (s : State) (subtotal : Int),
          ∃ s', stail (k + 4) ('/' :: rest) s subtotal = .ok (ERROR, ['/'], s')
            ∧ s'.stderr = s.stderr ++ ["Syntax Error: Expected a number\n"])
      ∧ (∀ (fuel : Nat) (token : List Char) (s : State),
          bexpr fuel token s ≠ .error .divByZero)
      ∧ ∀ (fuel : Nat) (token : List Char) (s : State) (subtotal : Int),
          stail fuel token s subtotal ≠ .error .divByZero := by
  refine ⟨?_, ?_, bexpr_no_division_fault,
    fun fuel token s subtotal => ((all_good fuel).2.2.2.2.2.2.1 token s subtotal).1⟩
  · intro k s
    have hd : digits (a ++ " / 0 ;".toList) = a :=
      takeWhile_append_stop Char.isDigit a ' ' "/ 0 ;".toList hdig (by decide)
    cases a with
    | nil => exact absurd rfl hne
    | cons c r =>
      have h := bexpr_digit k c (r ++ " / 0 ;".toList) s (hdig c (List.mem_cons_self c r))
      obtain ⟨more, h1, h2⟩ := afterDigits_calls s (c :: (r ++ " / 0 ;".toList))
      rw [show c :: (r ++ " / 0 ;".toList) = (c :: r) ++ " / 0 ;".toList from rfl] at h h1 h2
      rw [hd] at h h2
      exact ⟨_, h, more, h1, h2⟩
  · intro k rest s subtotal
    exact ⟨_, stail_division_operator k rest s subtotal, rfl⟩

/-- Witness for C8 at the literal `5`: `5 / 0 ;` returns `ERROR` with `5`
left in the buffer, `stail` on `/ 0 ;` returns `ERROR`, and neither faults
on a division. -/
theorem c8_division_by_zero_witness :
    ("5".toList ≠ [] ∧ ∀ c ∈ "5".toList, c.isDigit = true)
      ∧ (∃ s', bexpr 5 ("5".toList ++ " / 0 ;".toList) init = .ok (ERROR, "5".toList, s')
          ∧ ∃ more, s'.calls = init.calls ++ (init.line, "5".toList ++ " / 0 ;".toList) :: more
            ∧ ∀ e ∈ more, e.2 = "5".toList)
      ∧ (∃ s', stail 4 ('/' :: " 0 ;".toList) init 5 = .ok (ERROR, ['/'], s')
          ∧ s'.stderr = init.stderr ++ ["Syntax Error: Expected a number\n"])
      ∧ bexpr 5 "5 / 0 ;".toList init ≠ .error .divByZero
      ∧ stail 5 "/ 0 ;".toList init 5 ≠ .error .divByZero :=
  ⟨⟨by decide, by decide⟩,
    (c8_division_by_zero "5".toList (by decide) (by decide)).1 0 init,
    (c8_division_by_zero "5".toList (by decide) (by decide)).2.1 0 " 0 ;".toList init 5,
    (c8_division_by_zero "5".toList (by decide) (by decide)).2.2.1 5 "5 / 0 ;".toList init,
    (c8_division_by_zero "5".toList (by decide) (by decide)).2.2.2 5 "/ 0 ;".toList init 5⟩

/-- C9: expected-number error with short-circuit propagation. On every buffer
whose first character is neither `(` nor a digit, `bexpr` returns `ERROR`
once the fuel covers its five nested calls, with `is_right_paren_error`
false and the "Expected a number" message printed; `get_token` has been
called exactly once, on the original buffer, so the buffer, category and
lexeme length are those of that one call and the cursor has advanced by
exactly that lexeme length (which, for a non-empty buffer, is the length of
the lexeme left in the buffer). -/
theorem c9_expected_number (k : Nat) (token : List Char) (s : State)
    (hp : charAt token 0 ≠ '(') (hd : (charAt token 0).isDigit = false) :
    ∃ t s', bexpr (k + 5) token s = .ok (ERROR, t, s')
      ∧ s'.is_right_paren_error = false
      ∧ s'.stderr = s.stderr ++ ["Syntax Error: Expected a number\n"]
      ∧ s'.calls = s.calls ++ [(s.line, token)]
      ∧ t = (get_token token s).1
      ∧ s'.current_category = (get_token token s).2.current_category
      ∧ s'.lexeme_length = (get_token token s).2.lexeme_length
      ∧ s'.line = s.line + s'.lexeme_length
      ∧ (token ≠ [] → t.length = s'.lexeme_length) := by
  refine ⟨_, _, bexpr_other k token s hp hd, ?_⟩
  simp only [get_token_eq, State.pulled, State.eprint]
  refine ⟨trivial, trivial, trivial, trivial, trivial, trivial, trivial, ?_⟩
  intro hne
  rw [List.length_take]
  exact Nat.min_eq_left (length_of_le token hne)

/-- Witness for C9 on the buffer `+ 1 ;`, started from the initial globals:
one `get_token` call, cursor at 1, `ERROR` returned. -/
theorem c9_expected_number_witness :
    (charAt "+ 1 ;".toList 0 ≠ '(' ∧ (charAt "+ 1 ;".toList 0).isDigit = false)
      ∧ ∃ t s', bexpr 5 "+ 1 ;".toList init = .ok (ERROR, t, s')
          ∧ s'.is_right_paren_error = false
          ∧ s'.stderr = init.stderr ++ ["Syntax Error: Expected a number\n"]
          ∧ s'.calls = init.calls ++ [(init.line, "+ 1 ;".toList)]
          ∧ t = (get_token "+ 1 ;".toList init).1
          ∧ s'.current_category = (get_token "+ 1 ;".toList init).2.current_category
          ∧ s'.lexeme_length = (get_token "+ 1 ;".toList init).2.lexeme_length
          ∧ s'.line = init.line + s'.lexeme_length
          ∧ ("+ 1 ;".toList ≠ [] → t.length = s'.lexeme_length) :=
  ⟨⟨by decide, by decide⟩, c9_expected_number 0 "+ 1 ;".toList init (by decide) (by decide)⟩

/-- C10: `INT_LITERAL` scanning is greedy. On every buffer that starts with a
digit, `get_token` sets the category to `INT_LITERAL` and the lexeme length
to the length of the leading digit run, and leaves exactly that run in the
buffer: it is a prefix of the input made of digits only, and the character
that follows it in the input is not a digit. -/
theorem c10_int_literal_greedy (token : List Char) (s : State)
    (h : (charAt token 0).isDigit = true) :
    (get_token token s).2.current_category = "INT_LITERAL"
      ∧ (get_token token s).2.lexeme_length = (token.takeWhile Char.isDigit).length
      ∧ (get_token token s).1 = token.takeWhile Char.isDigit
      ∧ 1 ≤ (get_token token s).2.lexeme_length
      ∧ (∀ c ∈ (get_token token s).1, c.isDigit = true)
      ∧ token = (get_token token s).1 ++ token.drop (get_token token s).2.lexeme_length
      ∧ (charAt (token.drop (get_token token s).2.lexeme_length) 0).isDigit = false := by
  cases token with
  | nil => simp [charAt, Char.isDigit] at h
  | cons c r =>
    have hc : c.isDigit = true := by simpa [charAt] using h
    rw [get_token_digit c r s hc]
    simp only [State.pulled]
    refine ⟨trivial, trivial, trivial, ?_, ?_, ?_, ?_⟩
    · simp [List.takeWhile_cons_of_pos hc]
    · intro x hx
      exact (List.mem_takeWhile_imp hx)
    · rw [drop_length_takeWhile]
      exact (List.takeWhile_append_dropWhile Char.isDigit (c :: r)).symm
    · rw [drop_length_takeWhile]
      exact charAt_dropWhile_isDigit (c :: r)

/-- Witness for C10 on the buffer `123+4`: the lexeme is `123`, not `1`. -/
theorem c10_int_literal_greedy_witness :
    (charAt "123+4".toList 0).isDigit = true
      ∧ (get_token "123+4".toList init).2.current_category = "INT_LITERAL"
      ∧ (get_token "123+4".toList init).2.lexeme_length = 3
      ∧ (get_token "123+4".toList init).1 = "123".toList :=
  ⟨by decide,
    (c10_int_literal_greedy "123+4".toList init (by decide)).1,
    (c10_int_literal_greedy "123+4".toList init (by decide)).2.1,
    (c10_int_literal_greedy "123+4".toList init (by decide)).2.2.1⟩

/-- C11: two-character operators are preferred. On a buffer that starts with
`<`, `>`, `=` or `!`, `get_token` looks at the second character only: when it
is `=` the category is `LESS_THAN_OR_EQUAL_OP`, `GREATER_THAN_OR_EQUAL_OP`,
`EQUALS_OP` or `NOT_EQUALS_OP` and the lexeme length is 2, otherwise the
category is `LESS_THAN_OP`, `GREATER_THAN_OP`, `ASSIGN_OP` or `NOT_OP` and
the lexeme length is 1; the buffer is cut to that many characters, the
cursor advances by as many, and no other global changes. -/
theorem c11_two_character_operators (rest : List Char) (s : State) :
    get_token ('<' :: rest) s =
        (('<' :: rest).take (if charAt ('<' :: rest) 1 = '=' then 2 else 1),
          s.pulled ('<' :: rest)
            (if charAt ('<' :: rest) 1 = '=' then "LESS_THAN_OR_EQUAL_OP" else "LESS_THAN_OP")
            (if charAt ('<' :: rest) 1 = '=' then 2 else 1))
      ∧ get_token ('>' :: rest) s =
        (('>' :: rest).take (if charAt ('>' :: rest) 1 = '=' then 2 else 1),
          s.pulled ('>' :: rest)
            (if charAt ('>' :: rest) 1 = '=' then "GREATER_THAN_OR_EQUAL_OP"
              else "GREATER_THAN_OP")
            (if charAt ('>' :: rest) 1 = '=' then 2 else 1))
      ∧ get_token ('=' :: rest) s =
        (('=' :: rest).take (if charAt ('=' :: rest) 1 = '=' then 2 else 1),
          s.pulled ('=' :: rest)
            (if charAt ('=' :: rest) 1 = '=' then "EQUALS_OP" else "ASSIGN_OP")
            (if charAt ('=' :: rest) 1 = '=' then 2 else 1))
      ∧ get_token ('!' :: rest) s =
        (('!' :: rest).take (if charAt ('!' :: rest) 1 = '=' then 2 else 1),
          s.pulled ('!' :: rest)
            (if charAt ('!' :: rest) 1 = '=' then "NOT_EQUALS_OP" else "NOT_OP")
            (if charAt ('!' :: rest) 1 = '=' then 2 else 1)) := by
  refine ⟨?_, ?_, ?_, ?_⟩
  · by_cases he : charAt ('<' :: rest) 1 = '=' <;>
      simp [get_token, check_token, is_valid_operator, check_equals, charAt, he, State.pulled,
        show charAt ('<' :: rest) 0 = '<' from rfl] <;> simp_all [charAt]
  · by_cases he : charAt ('>' :: rest) 1 = '=' <;>
      simp [get_token, check_token, is_valid_operator, check_equals, charAt, he, State.pulled,
        show charAt ('>' :: rest) 0 = '>' from rfl] <;> simp_all [charAt]
  · by_cases he : charAt ('=' :: rest) 1 = '=' <;>
      simp [get_token, check_token, is_valid_operator, check_equals, charAt, he, State.pulled,
        show charAt ('=' :: rest) 0 = '=' from rfl] <;> simp_all [charAt]
  · by_cases he : charAt ('!' :: rest) 1 = '=' <;>
      simp [get_token, check_token, is_valid_operator, check_equals, charAt, he, State.pulled,
        show charAt ('!' :: rest) 0 = '!' from rfl] <;> simp_all [charAt]

/-- C12: single-character dispatch. On a buffer that starts with `+`, `-`,
`*`, `/`, `^`, `(`, `)` or `;`, whatever follows, `get_token` sets the
category to `ADD_OP`, `SUB_OP`, `MULT_OP`, `DIV_OP`, `EXPON_OP`,
`LEFT_PAREN`, `RIGHT_PAREN` or `SEMI_COLON` respectively and the lexeme
length to 1, leaves that one character in the buffer and advances the cursor
by 1. -/
theorem c12_single_character_dispatch (rest : List Char) (s : State) :
    get_token ('+' :: rest) s = (['+'], s.pulled ('+' :: rest) "ADD_OP" 1)
      ∧ get_token ('-' :: rest) s = (['-'], s.pulled ('-' :: rest) "SUB_OP" 1)
      ∧ get_token ('*' :: rest) s = (['*'], s.pulled ('*' :: rest) "MULT_OP" 1)
      ∧ get_token ('/' :: rest) s = (['/'], s.pulled ('/' :: rest) "DIV_OP" 1)
      ∧ get_token ('^' :: rest) s = (['^'], s.pulled ('^' :: rest) "EXPON_OP" 1)
      ∧ get_token ('(' :: rest) s = (['('], s.pulled ('(' :: rest) "LEFT_PAREN" 1)
      ∧ get_token (')' :: rest) s = ([')'], s.pulled (')' :: rest) "RIGHT_PAREN" 1)
      ∧ get_token (';' :: rest) s = ([';'], s.pulled (';' :: rest) "SEMI_COLON" 1) := by
  refine ⟨?_, ?_, ?_, ?_, ?_, ?_, ?_, ?_⟩ <;> apply get_token_single <;> simp

/-- C13: `INVALID` is a normal return. `get_token` is a total function; on
every buffer whose first character is none of `+ - * / ^ < > = ! ( ) ;` and
not a digit it returns with category `INVALID` and lexeme length 1, leaving
that one character in the buffer; and on every buffer whose first character
is one of those twelve or a digit the category is not `INVALID`. -/
theorem c13_invalid_is_a_normal_return (token : List Char) (s : State) :
    ((charAt token 0 ∉ ['+', '-', '*', '/', '^', '<', '>', '=', '!', '(', ')', ';']
        ∧ (charAt token 0).isDigit = false) →
      get_token token s = (token.take 1, s.pulled token "INVALID" 1))
    ∧ ((charAt token 0 ∈ ['+', '-', '*', '/', '^', '<', '>', '=', '!', '(', ')', ';']
        ∨ (charAt token 0).isDigit = true) →
      (get_token token s).2.current_category ≠ "INVALID") := by
  constructor
  · rintro ⟨hn, hd⟩
    simp only [List.mem_cons, List.mem_singleton, List.not_mem_nil, or_false, not_or] at hn
    obtain ⟨h1, h2, h3, h4, h8, h5, h6, h7, h9, h10, h11, h12⟩ := hn
    exact get_token_invalid token s (by rw [digit_test_eq_isDigit]; exact hd)
      h1 h2 h3 h4 h5 h6 h7 h8 h9 h10 h11 h12
  · intro hm hcat
    rw [get_token_category, (class_table token).1] at hcat
    obtain ⟨hd, h1, h2, h3, h4, h5, h6, h7, h8, h9, h10, h11, h12⟩ :=
      category_table_invalid token hcat
    rw [digit_test_eq_isDigit] at hd
    simp [h1, h2, h3, h4, h5, h6, h7, h8, h9, h10, h11, h12, hd] at hm

/-- Witness for C13: the buffer `a+1` is classified `INVALID` with lexeme
`a`, and the buffer `+1` is not classified `INVALID`. -/
theorem c13_invalid_is_a_normal_return_witness :
    ((charAt "a+1".toList 0 ∉ ['+', '-', '*', '/', '^', '<', '>', '=', '!', '(', ')', ';']
        ∧ (charAt "a+1".toList 0).isDigit = false)
      ∧ get_token "a+1".toList init = ("a".toList, init.pulled "a+1".toList "INVALID" 1))
    ∧ ((charAt "+1".toList 0 ∈ ['+', '-', '*', '/', '^', '<', '>', '=', '!', '(', ')', ';']
        ∨ (charAt "+1".toList 0).isDigit = true)
      ∧ (get_token "+1".toList init).2.current_category ≠ "INVALID") :=
  ⟨⟨by decide, (c13_invalid_is_a_normal_return "a+1".toList init).1 (by decide)⟩,
    ⟨by decide, (c13_invalid_is_a_normal_return "+1".toList init).2 (by decide)⟩⟩

/-- C14: lexeme/cursor round trip. When `get_token` is called on the text at
the cursor, the cursor advances by exactly the lexeme length and the buffer
is left holding the first `lexeme_length` characters of that text; when that
text is not empty the lexeme has exactly `lexeme_length` characters, the
cursor stays within the line, and the line up to the new cursor is the line
up to the old cursor followed by the lexeme. The inner loop of `main` makes
every `get_token` call this way: in every run of the loop that reaches the
end of the line, each call was made on the text at the cursor, which was not
empty and fitted the array `token`; and such a run exists whenever fewer
than `TSIZE` characters lie between the cursor and the end of the line. -/
theorem c14_lexeme_cursor_round_trip (input_line : List Char) (s : State) :
    (get_token (input_line.drop s.line) s).2.line
        = s.line + (get_token (input_line.drop s.line) s).2.lexeme_length
      ∧ (get_token (input_line.drop s.line) s).1
        = (input_line.drop s.line).take (get_token (input_line.drop s.line) s).2.lexeme_length
      ∧ (input_line.drop s.line ≠ [] →
          (get_token (input_line.drop s.line) s).1.length
              = (get_token (input_line.drop s.line) s).2.lexeme_length
            ∧ (get_token (input_line.drop s.line) s).2.line ≤ input_line.length
            ∧ input_line.take (get_token (input_line.drop s.line) s).2.line
              = input_line.take s.line ++ (get_token (input_line.drop s.line) s).1)
      ∧ (∀ (fuel : Nat) (m : Main) (s' : State) (m' : Main),
          scan_line fuel input_line s m = .ok (s', m') →
          ∃ new, s'.calls = s.calls ++ new
            ∧ ∀ e ∈ new, e.2 = input_line.drop e.1 ∧ e.2 ≠ [] ∧ e.2.length < TSIZE)
      ∧ ∀ m : Main, input_line.length - s.line < TSIZE →
          ∃ s' m', scan_line (input_line.length - s.line) input_line s m = .ok (s', m') := by
  rw [get_token_eq]
  simp only [State.pulled]
  refine ⟨trivial, trivial, ?_, ?_, ?_⟩
  · intro hne
    have hle := length_of_le _ hne
    have hlen : (input_line.drop s.line).length = input_line.length - s.line :=
      List.length_drop _ _
    have hlt : s.line < input_line.length := by
      by_contra hge
      exact hne (List.drop_eq_nil_of_le (by omega))
    refine ⟨?_, ?_, ?_⟩
    · rw [List.length_take]; omega
    · omega
    · rw [List.take_add]
  · intro fuel m s' m' h
    obtain ⟨new, h1, h2⟩ := scan_line_calls input_line fuel s m s' m' h
    exact ⟨new, h1, fun e he => ⟨(h2 e he).1, (h2 e he).2.1, (h2 e he).2.2.1⟩⟩
  · intro m hfit
    obtain ⟨s', m', h, _⟩ :=
      scan_line_terminates input_line (input_line.length - s.line) s m (Nat.le_refl _) hfit
    exact ⟨s', m', h⟩

/-- Witness for C14 on the line `12+34;` with the cursor at 0: the lexeme is
`12`, the cursor moves to 2, the line up to 2 is that lexeme, and the loop
of `main` reaches the end of the line in six passes. -/
theorem c14_lexeme_cursor_round_trip_witness :
    ("12+34;".toList.drop init.line ≠ [] ∧ "12+34;".toList.length - init.line < TSIZE)
      ∧ ((get_token ("12+34;".toList.drop init.line) init).1.length
          = (get_token ("12+34;".toList.drop init.line) init).2.lexeme_length
        ∧ (get_token ("12+34;".toList.drop init.line) init).2.line ≤ "12+34;".toList.length
        ∧ "12+34;".toList.take (get_token ("12+34;".toList.drop init.line) init).2.line
          = "12+34;".toList.take init.line
            ++ (get_token ("12+34;".toList.drop init.line) init).1)
      ∧ ∃ s' m', scan_line ("12+34;".toList.length - init.line) "12+34;".toList init main_init
          = .ok (s', m') :=
  ⟨⟨by decide, by decide⟩,
    (c14_lexeme_cursor_round_trip "12+34;".toList init).2.2.1 (by decide),
    (c14_lexeme_cursor_round_trip "12+34;".toList init).2.2.2.2 main_init (by decide)⟩

/-- C15 (counterexample): `get_token` does not skip leading whitespace. On
the buffer ` 7` it classifies the space itself, as `INVALID` with lexeme ` `,
whereas on `7` it yields the lexeme `7` with category `INT_LITERAL`. -/
theorem c15_get_token_classifies_whitespace :
    (get_token " 7".toList init).1 = " ".toList
      ∧ (get_token " 7".toList init).2.current_category = "INVALID"
      ∧ (get_token "7".toList init).1 = "7".toList
      ∧ (get_token "7".toList init).2.current_category = "INT_LITERAL"
      ∧ ¬ ((get_token " 7".toList init).1 = (get_token "7".toList init).1
          ∧ (get_token " 7".toList init).2.current_category
            = (get_token "7".toList init).2.current_category) := by
  decide

/-- C15 (amended): the inner loop of `main`, not `get_token`, skips leading
whitespace. On a line of fewer than `TSIZE` characters made of a run `ws` of
spaces, tabs or newlines followed by text `rest` that starts with a
non-whitespace character, the loop steps over the run one character per
pass, changing only the cursor and `line_count`; its next pass calls
`get_token` on exactly `rest`, leaves the globals as that call leaves them,
and writes to `out_file` the lexeme and the category `get_token` yields on
`rest` (or the lexical error when the category is `INVALID`); and no run of
the loop that reaches the end of the line calls `get_token` on a buffer that
starts with a whitespace character. -/
theorem c15_driver_skips_whitespace (ws rest : List Char) (s : State) (m : Main) (fuel : Nat)
    (hws : ∀ c ∈ ws, is_blank c = true) (hrest : is_blank (charAt rest 0) = false)
    (hne : charAt rest 0 ≠ Char.ofNat 0) (hlen : (ws ++ rest).length < TSIZE) :
    (∃ n, scan_line (fuel + ws.length) (ws ++ rest) { s with line := 0 } m
        = scan_line fuel (ws ++ rest) { s with line := ws.length } { m with line_count := n })
      ∧ (∀ m1 : Main, ∃ r,
          scan_step (ws ++ rest) { s with line := ws.length } m1 = .ok r
            ∧ r.1 = (get_token rest { s with line := ws.length }).2
            ∧ r.2.out_file
              = m1.out_file ++ report m1.count (get_token rest { s with line := ws.length })
            ∧ lexemes r.2.out_file
              = lexemes m1.out_file ++ [(get_token rest { s with line := ws.length }).1])
      ∧ ∀ (fuel1 : Nat) (s1 : State) (m1 : Main) (s' : State) (m' : Main),
          scan_line fuel1 (ws ++ rest) s1 m1 = .ok (s', m') →
          ∃ new, s'.calls = s1.calls ++ new
            ∧ ∀ e ∈ new, is_blank (charAt e.2 0) = false := by
  refine ⟨?_, ?_, ?_⟩
  · obtain ⟨n, hn⟩ := scan_line_skip fuel rest ws [] s m hws (by simpa using hlen)
    refine ⟨n, ?_⟩
    simpa using hn
  · intro m1
    have hdrop : (ws ++ rest).drop ({ s with line := ws.length } : State).line = rest :=
      List.drop_left ws rest
    have hb : is_blank (charAt ((ws ++ rest).drop
        ({ s with line := ws.length } : State).line) 0) = false := by rw [hdrop]; exact hrest
    have h1 := scan_pass_token_state (ws ++ rest) { s with line := ws.length } m1 hb
    have h2 := scan_pass_token_out (ws ++ rest) { s with line := ws.length } m1 hb
      (by rw [hdrop]; exact charAt_ne_nul rest hne)
    have h3 := scan_pass_token_out_file (ws ++ rest) { s with line := ws.length } m1 hb
    rw [hdrop] at h1 h2 h3
    have hfit : ¬ TSIZE ≤ ((ws ++ rest).drop ({ s with line := ws.length } : State).line).length := by
      rw [hdrop]
      rw [List.length_append] at hlen
      omega
    exact ⟨_, by rw [scan_step, if_neg hfit], h1, h3, h2⟩
  · intro fuel1 s1 m1 s' m' h
    obtain ⟨new, h1, h2⟩ := scan_line_calls (ws ++ rest) fuel1 s1 m1 s' m' h
    exact ⟨new, h1, fun e he => (h2 e he).2.2.2⟩

/-- Witness for C15 (amended) on the line made of two spaces and `7;`: after
two passes the cursor is at 2, and the next pass writes the lexeme `7` with
the category `INT_LITERAL`. -/
theorem c15_driver_skips_whitespace_witness :
    ((∀ c ∈ "  ".toList, is_blank c = true) ∧ is_blank (charAt "7;".toList 0) = false
        ∧ charAt "7;".toList 0 ≠ Char.ofNat 0 ∧ ("  ".toList ++ "7;".toList).length < TSIZE)
      ∧ (∃ n, scan_line (2 + "  ".toList.length) ("  ".toList ++ "7;".toList)
            { init with line := 0 } main_init
          = scan_line 2 ("  ".toList ++ "7;".toList) { init with line := "  ".toList.length }
              { main_init with line_count := n })
      ∧ (∃ r, scan_step ("  ".toList ++ "7;".toList)
              { init with line := "  ".toList.length } main_init = .ok r
          ∧ r.1 = (get_token "7;".toList { init with line := "  ".toList.length }).2
          ∧ r.2.out_file = main_init.out_file
              ++ report main_init.count
                (get_token "7;".toList { init with line := "  ".toList.length })
          ∧ lexemes r.2.out_file = lexemes main_init.out_file
              ++ [(get_token "7;".toList { init with line := "  ".toList.length }).1])
      ∧ report main_init.count (get_token "7;".toList { init with line := "  ".toList.length })
          = [Output.lexeme 0 "7".toList "INT_LITERAL"] :=
  ⟨⟨by decide, by decide, by decide, by decide⟩,
    (c15_driver_skips_whitespace "  ".toList "7;".toList init main_init 2
      (by decide) (by decide) (by decide) (by decide)).1,
    (c15_driver_skips_whitespace "  ".toList "7;".toList init main_init 2
      (by decide) (by decide) (by decide) (by decide)).2.1 main_init,
    by decide⟩

/-- C16 (code defect): tokenizing a line with the loop of `main`. On a line
of fewer than `TSIZE` characters (a C string, so without an embedded NUL)
the loop reaches the end of the line within as many passes as the line has
characters, and the lexemes it reports (the token of each classified lexeme
and the character of each lexical error), in order, are non-empty and put
end to end give the line with all spaces, tabs and newlines removed. For
`12+34;` it writes the header, the four tokens `INT_LITERAL 12`, `ADD_OP +`,
`INT_LITERAL 34`, `SEMI_COLON ;` and the separator. On the 40-character line
`long_line` the first pass copies 41 bytes into the `TSIZE` bytes of `token`:
every run of the loop overflows the array, and none yields a token. -/
theorem c16_tokenize_line (input_line : List Char) (s : State) (m : Main)
    (hnul : Char.ofNat 0 ∉ input_line) (hlen : input_line.length < TSIZE) :
    (∃ s' m', main_line input_line.length input_line s m = .ok (s', m')
        ∧ s'.line = input_line.length
        ∧ ∃ new, lexemes m'.out_file = lexemes m.out_file ++ new
          ∧ new.flatten = input_line.filter (fun c => !is_blank c)
          ∧ ∀ l ∈ new, l ≠ [])
      ∧ (main_line 6 "12+34;".toList init main_init).toOption.map
            (fun r => (r.1.line, r.2.out_file))
        = some (6, [Output.statement 1, Output.lexeme 0 ("12".toList) "INT_LITERAL",
            Output.lexeme 1 ("+".toList) "ADD_OP",
            Output.lexeme 2 ("34".toList) "INT_LITERAL",
            Output.lexeme 3 (";".toList) "SEMI_COLON", Output.separator])
      ∧ (long_line.length = 40 ∧ Char.ofNat 0 ∉ long_line)
      ∧ (∀ (fuel : Nat) (s1 : State) (m1 : Main),
          main_line (fuel + 1) long_line s1 m1 = .error .overflow)
      ∧ ∀ (fuel : Nat) (s1 : State) (m1 : Main) (r : State × Main),
          main_line fuel long_line s1 m1 ≠ .ok r := by
  have hov : ∀ s1 : State,
      TSIZE ≤ (long_line.drop ({ s1 with line := 0 } : State).line).length := by
    intro s1
    show TSIZE ≤ (long_line.drop 0).length
    decide
  have hc : ∀ s1 : State,
      charAt (long_line.drop ({ s1 with line := 0 } : State).line) 0 ≠ Char.ofNat 0 := by
    intro s1
    show charAt (long_line.drop 0) 0 ≠ Char.ofNat 0
    decide
  have hover : ∀ (fuel : Nat) (s1 : State) (m1 : Main),
      main_line (fuel + 1) long_line s1 m1 = .error .overflow := by
    intro fuel s1 m1
    unfold main_line
    exact scan_line_overflow fuel long_line _ _ (hov s1) (hc s1)
  refine ⟨?_, by decide, ⟨by decide, by decide⟩, hover, ?_⟩
  · unfold main_line
    obtain ⟨s', m', hrun, hline, new, hlex, hcat, hnon⟩ :=
      scan_line_run input_line hnul hlen input_line.length { s with line := 0 }
        (if m.start = 1 then
          { m with out_file := m.out_file ++ [.statement m.i], start := 0, count := 0 }
        else m)
        (Nat.zero_le _) (by simp)
    refine ⟨s', m', hrun, hline, new, ?_, by simpa using hcat, hnon⟩
    rw [hlex]
    by_cases hs : m.start = 1
    · simp [hs, lexemes, Output.lexemes]
    · simp [hs]
  · intro fuel s1 m1 r h
    cases fuel with
    | zero =>
      unfold main_line at h
      rw [scan_line, if_neg (hc s1)] at h
      cases h
    | succ k =>
      rw [hover k s1 m1] at h
      cases h

/-- Witness for C16 on the line `1 + a`: the loop ends at the end of the
line and the reported lexemes put end to end are `1+a`. -/
theorem c16_tokenize_line_witness :
    (Char.ofNat 0 ∉ "1 + a".toList ∧ "1 + a".toList.length < TSIZE)
      ∧ ∃ s' m', main_line "1 + a".toList.length "1 + a".toList init main_init = .ok (s', m')
        ∧ s'.line = "1 + a".toList.length
        ∧ ∃ new, lexemes m'.out_file = lexemes main_init.out_file ++ new
          ∧ new.flatten = "1 + a".toList.filter (fun c => !is_blank c)
          ∧ ∀ l ∈ new, l ≠ [] :=
  ⟨⟨by decide, by decide⟩,
    (c16_tokenize_line "1 + a".toList init main_init (by decide) (by decide)).1⟩

/-- C17: each `bexpr` call is a fresh, independent evaluation. Whatever
values the globals `current_category`, `lexeme_length` and
`is_right_paren_error` hold when `bexpr` is called, the run is the same: the
same outcome, the same return value, the same buffer and the same globals
afterwards, `is_right_paren_error` included. -/
theorem c17_bexpr_fresh_evaluation (fuel : Nat) (token : List Char) (s : State)
    (cat : String) (n : Nat) (b : Bool) :
    bexpr fuel token
        { s with current_category := cat, lexeme_length := n, is_right_paren_error := b }
      = bexpr fuel token s := by
  by_cases hk : fuel ≤ 4
  · rw [bexpr_small fuel hk, bexpr_small fuel hk]
  obtain ⟨k, rfl⟩ : ∃ k, fuel = k + 5 := ⟨fuel - 5, by omega⟩
  by_cases hp : charAt token 0 = '('
  · obtain ⟨rest, hr⟩ := charAt_cons_of_eq token '(' hp (by decide)
    rw [hr, bexpr_lparen, bexpr_lparen]
  by_cases hd : (charAt token 0).isDigit = true
  · have hne : charAt token 0 ≠ Char.ofNat 0 := by
      intro h0; rw [h0] at hd; revert hd; decide
    obtain ⟨rest, hr⟩ := charAt_cons_of_eq token _ rfl hne
    have hd' : (charAt token 0).isDigit = true := hd
    rw [hr, bexpr_digit k _ rest _ hd', bexpr_digit k _ rest _ hd']
    rfl
  · have hd1 : (charAt token 0).isDigit = false := by simpa using hd
    rw [bexpr_other k token _ hp hd1, bexpr_other k token _ hp hd1]
    rfl

/-- C18 (code defect): the cursor and the token being classified drift
apart. In the evaluation of `7 / 2 ;` `get_token` is called five times while
the cursor moves from 0 to 5: the first call is on the statement, the other
four are on the buffer `7` again, although the text at cursor 1 is ` / 2 ;`.
The lexeme `7` is thus consumed five times and `/`, `2`, `;` never. -/
theorem c18_cursor_and_token_drift (k : Nat) :
    ∃ s', bexpr (k + 5) "7 / 2 ;".toList init = .ok (ERROR, "7".toList, s')
      ∧ s'.calls = [(0, "7 / 2 ;".toList), (1, "7".toList), (2, "7".toList),
          (3, "7".toList), (4, "7".toList)]
      ∧ s'.line = 5
      ∧ "7 / 2 ;".toList.drop 1 = " / 2 ;".toList
      ∧ "7".toList ≠ " / 2 ;".toList := by
  refine ⟨_, bexpr_digit k '7' " / 2 ;".toList init (by decide), ?_, ?_, by decide, by decide⟩
  · have hv : atoi (digits "7 / 2 ;".toList) ≠ ERROR := by decide
    simp only [State.afterDigits, if_neg hv, State.pulledN, State.pulled, State.eprint]
    decide
  · exact (afterDigits_of_value init "7 / 2 ;".toList (by decide)).2.2.2

/-- C19 (code defect): `bexpr` does not terminate on a buffer that starts
with `(`. Whatever follows the parenthesis and whatever the call depth
allowed, none of `bexpr`, `expr`, `term`, `stmt`, `factor` and `expp` has
returned; in particular `bexpr` returns neither a value nor `ERROR` on
`(1 + 2 ;`. -/
theorem c19_lparen_does_not_terminate (fuel : Nat) (rest : List Char) (s : State) :
    bexpr fuel ('(' :: rest) s = .error .outOfFuel
      ∧ expr fuel ('(' :: rest) s = .error .outOfFuel
      ∧ term fuel ('(' :: rest) s = .error .outOfFuel
      ∧ stmt fuel ('(' :: rest) s = .error .outOfFuel
      ∧ factor fuel ('(' :: rest) s = .error .outOfFuel
      ∧ expp fuel ('(' :: rest) s = .error .outOfFuel
      ∧ bexpr fuel "(1 + 2 ;".toList s = .error .outOfFuel := by
  obtain ⟨h1, h2, h3, h4, h5⟩ := lparen_out_of_fuel fuel rest s
  exact ⟨bexpr_lparen fuel rest s, h5, h4, h3, h2, h1, bexpr_lparen fuel "1 + 2 ;".toList s⟩

/-- C20 (counterexample): a buffer that starts with a digit does not always
leave `bexpr` through the "';' expected" branch. The literal `4294967295` is
converted by `atoi` to -1, the value of `ERROR`, so `bexpr` returns it from
its first check and nothing is written to `stderr`; the same happens with
the literal `9223372036854775808`, which `atoi` takes for `LONG_MAX`. -/
theorem c20_literal_taken_for_error :
    (atoi "4294967295 ;".toList = ERROR
      ∧ ∃ s', bexpr 5 "4294967295 ;".toList init = .ok (ERROR, "4294967295".toList, s')
          ∧ s'.stderr = [] ∧ s'.calls.length = 2)
      ∧ atoi "9223372036854775808 ;".toList = ERROR
      ∧ ∃ s', bexpr 5 "9223372036854775808 ;".toList init
            = .ok (ERROR, "9223372036854775808".toList, s')
          ∧ s'.stderr = [] ∧ s'.calls.length = 2 := by
  refine ⟨⟨by decide, _, bexpr_digit 0 '4' "294967295 ;".toList init (by decide), ?_, ?_⟩,
    by decide, _, bexpr_digit 0 '9' "223372036854775808 ;".toList init (by decide), ?_, ?_⟩
  · have hv : atoi (digits "4294967295 ;".toList) = ERROR := by decide
    simp only [State.afterDigits, if_pos hv, State.pulledN, State.pulled]
    rfl
  · have hv : atoi (digits "4294967295 ;".toList) = ERROR := by decide
    simp only [State.afterDigits, if_pos hv, State.pulledN, State.pulled]
    rfl
  · have hv : atoi (digits "9223372036854775808 ;".toList) = ERROR := by decide
    simp only [State.afterDigits, if_pos hv, State.pulledN, State.pulled]
    rfl
  · have hv : atoi (digits "9223372036854775808 ;".toList) = ERROR := by decide
    simp only [State.afterDigits, if_pos hv, State.pulledN, State.pulled]
    rfl

/-- C20 (amended): `bexpr` never yields an evaluated result. Whenever `bexpr`
returns, it returns `ERROR`. On a buffer that starts with a digit and whose
literal `atoi` does not convert to -1, `expr` returns the literal's value
with the category still `INT_LITERAL`, so `bexpr` returns `ERROR` through the
"';' expected" branch; when `atoi` converts the literal to -1, `bexpr`
returns `ERROR` from its first check and prints nothing. A literal of at
most 2147483647 is converted to its value, which is not -1; a literal of
`LONG_MAX` or more is converted to -1. -/
theorem c20_bexpr_never_yields_a_result (fuel k : Nat) (token : List Char) (s : State)
    (c : Char) (rest : List Char) (hc : c.isDigit = true) :
    (∀ v t s', bexpr fuel token s = .ok (v, t, s') → v = ERROR)
      ∧ (atoi (digits (c :: rest)) ≠ ERROR →
          (∃ s1, expr (k + 5) (c :: rest) { s with is_right_paren_error := false }
                = .ok (atoi (digits (c :: rest)), digits (c :: rest), s1)
              ∧ s1.current_category = "INT_LITERAL" ∧ s1.current_category ≠ "SEMI_COLON")
            ∧ ∃ s', bexpr (k + 5) (c :: rest) s = .ok (ERROR, digits (c :: rest), s')
              ∧ s'.current_category = "INT_LITERAL"
              ∧ s'.stderr = s.stderr ++ ["Syntax Error: ';' expected\n"])
      ∧ (atoi (digits (c :: rest)) = ERROR →
          ∃ s', bexpr (k + 5) (c :: rest) s = .ok (ERROR, digits (c :: rest), s')
            ∧ s'.stderr = s.stderr)
      ∧ (literal_value (c :: rest) ≤ 2147483647 →
          atoi (digits (c :: rest)) = Int.ofNat (literal_value (c :: rest))
            ∧ atoi (digits (c :: rest)) ≠ ERROR)
      ∧ (LONG_MAX ≤ literal_value (c :: rest) → atoi (digits (c :: rest)) = ERROR) := by
  refine ⟨?_, ?_, ?_, ?_, atoi_saturated (c :: rest)⟩
  · intro v t s' h
    rcases bexpr_cases fuel token s with h1 | ⟨_, _, _, _, h1⟩ | ⟨_, _, h1⟩
    · rw [h1] at h; cases h
    · rw [h1] at h
      simp only [Except.ok.injEq, Prod.mk.injEq] at h
      exact h.1.symm
    · rw [h1] at h
      simp only [Except.ok.injEq, Prod.mk.injEq] at h
      exact h.1.symm
  · intro hv
    have h := afterDigits_of_value s (c :: rest) hv
    refine ⟨⟨_, expr_digit k c rest _ hc, ?_, ?_⟩, _, bexpr_digit k c rest s hc, h.2.1, h.1⟩
    · rw [if_neg hv]
      rfl
    · rw [if_neg hv]
      show ("INT_LITERAL" : String) ≠ "SEMI_COLON"
      decide
  · intro hv
    refine ⟨_, bexpr_digit k c rest s hc, ?_⟩
    simp only [State.afterDigits, if_pos hv, State.pulledN, State.pulled]
  · intro hv
    have h := atoi_small (c :: rest) hv
    refine ⟨h, ?_⟩
    rw [h]
    unfold ERROR
    simp only [Int.ofNat_eq_coe]
    omega

/-- Witness for C20 (amended) on `7 / 2 ;` from the initial globals: the
literal is at most 2147483647, `atoi` converts it to 7, `expr` returns 7 with
category `INT_LITERAL`, and `bexpr` returns `ERROR` with the "';' expected"
message. -/
theorem c20_bexpr_never_yields_a_result_witness :
    ('7'.isDigit = true ∧ atoi (digits "7 / 2 ;".toList) ≠ ERROR
        ∧ literal_value "7 / 2 ;".toList ≤ 2147483647)
      ∧ (∀ v t s', bexpr 9 "7 / 2 ;".toList init = .ok (v, t, s') → v = ERROR)
      ∧ (∃ s', bexpr 5 "7 / 2 ;".toList init = .ok (ERROR, digits "7 / 2 ;".toList, s')
          ∧ s'.current_category = "INT_LITERAL"
          ∧ s'.stderr = init.stderr ++ ["Syntax Error: ';' expected\n"])
      ∧ (atoi (digits "7 / 2 ;".toList) = Int.ofNat (literal_value "7 / 2 ;".toList)
          ∧ atoi (digits "7 / 2 ;".toList) ≠ ERROR) :=
  ⟨⟨by decide, by decide, by decide⟩,
    (c20_bexpr_never_yields_a_result 9 0 "7 / 2 ;".toList init '7' " / 2 ;".toList
      (by decide)).1,
    ((c20_bexpr_never_yields_a_result 9 0 "7 / 2 ;".toList init '7' " / 2 ;".toList
      (by decide)).2.1 (by decide)).2,
    (c20_bexpr_never_yields_a_result 9 0 "7 / 2 ;".toList init '7' " / 2 ;".toList
      (by decide)).2.2.2.1 (by decide)⟩

/-- C21: `get_token` is idempotent on its own token buffer. For every buffer,
a second `get_token` call on the buffer the first call left behind leaves
the same buffer contents, the same category and the same lexeme length as
the first call; the cursor moves on by the lexeme length once more, and
`is_right_paren_error` and the text on `stderr` are untouched. -/
theorem c21_get_token_idempotent (token : List Char) (s : State) :
    (get_token (get_token token s).1 (get_token token s).2).1 = (get_token token s).1
      ∧ (get_token (get_token token s).1 (get_token token s).2).2.current_category
          = (get_token token s).2.current_category
      ∧ (get_token (get_token token s).1 (get_token token s).2).2.lexeme_length
          = (get_token token s).2.lexeme_length
      ∧ (get_token (get_token token s).1 (get_token token s).2).2.line
          = (get_token token s).2.line + (get_token token s).2.lexeme_length
      ∧ (get_token (get_token token s).1 (get_token token s).2).2.is_right_paren_error
          = (get_token token s).2.is_right_paren_error
      ∧ (get_token (get_token token s).1 (get_token token s).2).2.stderr
          = (get_token token s).2.stderr := by
  rw [get_token_again token s, get_token_eq token s]
  exact ⟨rfl, rfl, rfl, rfl, rfl, rfl⟩

/-- C22 (code defect): the lexeme length is bounded by the input. On every
non-empty buffer `get_token` sets a lexeme length between 1 and the length of
the buffer. Hence each pass of the inner loop of `main` that finds a
character at the cursor, and whose text at the cursor fits the array
`token`, moves the cursor strictly forward and not past the end of the line;
and with fewer than `TSIZE` characters between the cursor and the end of the
line the loop stops within as many passes as there are such characters, the
cursor still within the line. On the 40-character line `long_line` the first
pass overflows `token`: the loop does not reach the end of the line, with
any number of passes. -/
theorem c22_lexeme_length_bounded (token input_line : List Char) (s : State) (m : Main) :
    (token ≠ [] →
        1 ≤ (get_token token s).2.lexeme_length
          ∧ (get_token token s).2.lexeme_length ≤ token.length)
      ∧ (charAt (input_line.drop s.line) 0 ≠ Char.ofNat 0 →
          (input_line.drop s.line).length < TSIZE →
          scan_step input_line s m = .ok (scan_pass input_line s m)
            ∧ s.line < (scan_pass input_line s m).1.line
            ∧ (scan_pass input_line s m).1.line ≤ input_line.length)
      ∧ (∀ fuel : Nat, input_line.length - s.line ≤ fuel →
          input_line.length - s.line < TSIZE →
          ∃ s' m', scan_line fuel input_line s m = .ok (s', m')
            ∧ s.line ≤ s'.line
            ∧ (s.line ≤ input_line.length → s'.line ≤ input_line.length))
      ∧ (TSIZE ≤ long_line.length
          ∧ scan_step long_line { s with line := 0 } m = .error .overflow)
      ∧ (∀ fuel : Nat, scan_line (fuel + 1) long_line { s with line := 0 } m = .error .overflow)
      ∧ ∀ (fuel : Nat) (r : State × Main),
          scan_line fuel long_line { s with line := 0 } m ≠ .ok r := by
  have hov : TSIZE ≤ (long_line.drop ({ s with line := 0 } : State).line).length := by
    show TSIZE ≤ (long_line.drop 0).length
    decide
  have hc : charAt (long_line.drop ({ s with line := 0 } : State).line) 0 ≠ Char.ofNat 0 := by
    show charAt (long_line.drop 0) 0 ≠ Char.ofNat 0
    decide
  refine ⟨?_, ?_, fun fuel h hfit => scan_line_terminates input_line fuel s m h hfit,
    ⟨by decide, by rw [scan_step, if_pos hov]⟩,
    fun fuel => scan_line_overflow fuel long_line _ m hov hc, ?_⟩
  · intro hne
    rw [get_token_eq]
    exact ⟨length_of_pos token, length_of_le token hne⟩
  · intro hnul hfit
    have h : ¬ TSIZE ≤ (input_line.drop s.line).length := by omega
    exact ⟨by rw [scan_step, if_neg h], scan_pass_advance input_line s m hnul⟩
  · intro fuel r h
    cases fuel with
    | zero =>
      rw [scan_line, if_neg hc] at h
      cases h
    | succ k =>
      rw [scan_line_overflow k long_line _ m hov hc] at h
      cases h

/-- Witness for C22 on the line `12+34;` from the initial globals: the first
lexeme has length between 1 and 6, the first pass moves the cursor forward
within the line, and six passes finish the line. -/
theorem c22_lexeme_length_bounded_witness :
    ("12+34;".toList ≠ [] ∧ charAt ("12+34;".toList.drop init.line) 0 ≠ Char.ofNat 0
        ∧ ("12+34;".toList.drop init.line).length < TSIZE
        ∧ "12+34;".toList.length - init.line ≤ 6
        ∧ "12+34;".toList.length - init.line < TSIZE)
      ∧ (1 ≤ (get_token "12+34;".toList init).2.lexeme_length
          ∧ (get_token "12+34;".toList init).2.lexeme_length ≤ "12+34;".toList.length)
      ∧ (scan_step "12+34;".toList init main_init
            = .ok (scan_pass "12+34;".toList init main_init)
          ∧ init.line < (scan_pass "12+34;".toList init main_init).1.line
          ∧ (scan_pass "12+34;".toList init main_init).1.line ≤ "12+34;".toList.length)
      ∧ ∃ s' m', scan_line 6 "12+34;".toList init main_init = .ok (s', m')
          ∧ init.line ≤ s'.line
          ∧ (init.line ≤ "12+34;".toList.length → s'.line ≤ "12+34;".toList.length) :=
  ⟨⟨by decide, by decide, by decide, by decide, by decide⟩,
    (c22_lexeme_length_bounded "12+34;".toList "12+34;".toList init main_init).1 (by decide),
    (c22_lexeme_length_bounded "12+34;".toList "12+34;".toList init main_init).2.1
      (by decide) (by decide),
    (c22_lexeme_length_bounded "12+34;".toList "12+34;".toList init main_init).2.2.1 6
      (by decide) (by decide)⟩

end Parser
